import Mathlib

/-!
Shallow embedding of the Roboc maze-game server core (modules `lib/element.py`,
`lib/controle.py`, `lib/regle.py`, `lib/joueur.py`, `lib/labyrinthe.py`) and
proofs about it.

Conventions used throughout:

* Python `(x, y)` integer coordinates become `Int × Int`.
* Python dictionaries become insertion-ordered association lists
  (`List (key × value)`) with the usual dict semantics: assignment replaces
  the value of an existing key in place, otherwise appends; iteration order is
  the list order.
* `Joueur` objects are mutable and aliased between `dict_client_joueur` and
  `liste_joueurs`; we model object identity with an allocation counter: every
  player gets a fresh numeric object id (`IdJoueur`), the objects themselves
  live in a heap `joueurs : List (IdJoueur × Joueur)`, and the roster map and
  turn list hold object ids.
* The rule registries `regles_mouvement` / `regles_transformation` are Python
  `set`s of functions, whose iteration order is implementation defined.  We
  therefore keep the registration lists and parametrise every evaluation by
  an iteration order, constrained (in theorems) to be a permutation of the
  registered rules.
* `random.shuffle` / `random.sample` / `random.randint` become explicit
  parameters (a reordering function, permuted lists, an index), constrained
  in theorems by the distributions the source draws from.
* Exceptions raised by the rules become the `Issue` sum type; `while` loops
  become fuel-indexed recursion with provably sufficient fuel.
-/

namespace Roboc

/-- Coordinates `(abscisse, ordonnee)` as in the Python `Coordonnees` alias. -/
abbrev Coordonnees := Int × Int

/-! ### Elements (`lib/element.py`)

The concrete element classes declared in `element.py` are `Porte`, `Mur`,
`Sortie`, `Sol` (plus the display-only `Robot`/`Adversaire`).  The mix-in
class hierarchy becomes one inductive type plus boolean capability tests that
mirror `issubclass` against each mix-in. -/

inductive Element where
  | porte
  | mur
  | sortie
  | sol
  deriving DecidableEq, Repr

namespace Element

/-- Capability `Decrypte`: elements stored in the grid (`Porte`, `Mur`, `Sortie`).
`Sol` derives `Decryptable` but not `Decrypte`. -/
def decrypte : Element → Bool
  | porte => true
  | mur => true
  | sortie => true
  | sol => false

/-- Capability `Traversable`: `Porte` directly, `Sortie` via `Gagnable`,
`Sol` via `Demarrable`; `Mur` is not traversable. -/
def traversable : Element → Bool
  | porte => true
  | mur => false
  | sortie => true
  | sol => true

/-- Capability `Gagnable` (winning): only `Sortie`. -/
def gagnable : Element → Bool
  | sortie => true
  | _ => false

/-- Capability `Demarrable` (startable): only `Sol`. -/
def demarrable : Element → Bool
  | sol => true
  | _ => false

/-- Capability `Transformable`: `Porte` (via `Murable`) and `Mur` (via
`Percable`), together with the `transformee` member set at module end
(`Murable.transformee = Mur`, `Percable.transformee = Porte`). -/
def transformee : Element → Option Element
  | porte => some mur
  | mur => some porte
  | _ => none

/-- Test `issubclass(_, Transformable)`. -/
def transformable (e : Element) : Bool := (e.transformee).isSome

/-- The `description` attribute of each element class. -/
def description : Element → String
  | porte => "la porte"
  | mur => "le mur"
  | sortie => "la sortie"
  | sol => "le terrain"

/-- The `symbole_affichage` attribute of each element class. -/
def symboleAffichage : Element → String
  | porte => "."
  | mur => "O"
  | sortie => "U"
  | sol => " "

end Element

/-- The registry `Elements.decryptable`, keyed by `symbole_carte`
(`"."`, `"O"`, `"U"`, `" "`). -/
def decryptable (c : Char) : Option Element :=
  if c = '.' then some .porte
  else if c = 'O' then some .mur
  else if c = 'U' then some .sortie
  else if c = ' ' then some .sol
  else none

/-- The registry entry `Elements.obstacle_par_defaut`: `Sol` is the only class
deriving `Defaut`. -/
def obstacleParDefaut : Element := .sol

/-- Grid lookup with default, as in `grille[c]` guarded by
`except KeyError: obstacle_par_defaut` (used by `Etat.__init__`,
`_determiner_departs` and `_afficher_plateau`). -/
def resoudre (grille : List (Coordonnees × Element)) (c : Coordonnees) : Element :=
  match grille.lookup c with
  | some e => e
  | none => obstacleParDefaut

/-! ### Controls (`lib/controle.py`)

The module instantiates the movements `N`, `S`, `E`, `O` and the
transformations `M` (`Murable`) and `P` (`Percable`).  `Transformer` models
the transformation families passed around as `Type[Transformable]`. -/

inductive Transformer where
  | murable
  | percable
  deriving DecidableEq, Repr

namespace Transformer

/-- The `description` attribute of the `Murable`/`Percable` mix-ins. -/
def description : Transformer → String
  | murable => "murer"
  | percable => "percer"

/-- The `transformee` member of the family (`Mur` for `Murable`,
`Porte` for `Percable`). -/
def transformee : Transformer → Element
  | murable => .mur
  | percable => .porte

end Transformer

/-- Test `issubclass(obstacle, transformation)`: `Porte` derives `Murable`,
`Mur` derives `Percable`, nothing else derives a transformation family. -/
def estDeFamille (e : Element) : Transformer → Bool
  | .murable => e = .porte
  | .percable => e = .mur

/-- The movement keys in instantiation order (`Mouvement.touches`). -/
def touchesMouvement : List Char := ['N', 'S', 'E', 'O']

/-- The transformation keys in instantiation order (`Transformation.touches`). -/
def touchesTransformation : List Char := ['M', 'P']

/-- Key-to-direction mapping built by the `Mouvement(...)` instantiations. -/
def directionDe (c : Char) : Option Coordonnees :=
  if c = 'N' then some (0, -1)
  else if c = 'S' then some (0, 1)
  else if c = 'E' then some (1, 0)
  else if c = 'O' then some (-1, 0)
  else none

/-- Key-to-family mapping built by the `Transformation(...)` instantiations. -/
def transformerDe (c : Char) : Option Transformer :=
  if c = 'M' then some .murable
  else if c = 'P' then some .percable
  else none

/-- Digit test for the `[0-9]*` group of the extraction regex. -/
def estChiffre (c : Char) : Bool := '0' ≤ c ∧ c ≤ '9'

/-- Numeric value of a digit string, as `int(repetition)` computes it. -/
def valeurChiffres (l : List Char) : Nat :=
  l.foldl (fun n c => 10 * n + (c.toNat - '0'.toNat)) 0

/-- One `re.findall` match of the compiled pattern
`(?:([NSEO])([0-9]*))|(?:([MP])([NSEO]))` (`extraction_controle_compile`):
the 4-tuple of groups, empty groups as the empty character list. -/
abbrev QuadExtraction := List Char × List Char × List Char × List Char

/-- Match of the movement alternative: group 1 the key, group 2 the digits. -/
def quadMouvement (m : Char) (chiffres : List Char) : QuadExtraction :=
  ([m], chiffres, [], [])

/-- Match of the transformation alternative: group 3 the transformation key,
group 4 the direction key. -/
def quadTransformation (t d : Char) : QuadExtraction :=
  ([], [], [t], [d])

/-- State of the left-to-right scan performed by `re.findall`: either between
matches, inside the movement alternative collecting its greedy `[0-9]*` group,
or just after a transformation key waiting for its direction key. -/
inductive ModeScan where
  | neutre
  | enMouvement (m : Char) (chiffres : List Char)
  | enTransformation (t : Char)
  deriving DecidableEq, Repr

/-- Scan state entered when the pattern is attempted at a fresh position whose
first character is `c`: the movement alternative is tried first, then the
transformation alternative; any other character fails to match, and the scan
advances one position. -/
def modeInitial (c : Char) : ModeScan :=
  if c ∈ touchesMouvement then .enMouvement c []
  else if c ∈ touchesTransformation then .enTransformation c
  else .neutre

/-- One step of the `re.findall` scan, consuming character `c` and possibly
emitting a completed match.  A digit extends the greedy `[0-9]*` group; a
non-digit ends a movement match and is re-examined as a fresh position; a
movement key completes a transformation match; a transformation key not
followed by a movement key fails, and `re.findall` retries the pattern from
the very next character. -/
def pasScan (mode : ModeScan) (c : Char) : ModeScan × Option QuadExtraction :=
  match mode with
  | .neutre => (modeInitial c, none)
  | .enMouvement m chiffres =>
    if estChiffre c then (.enMouvement m (chiffres ++ [c]), none)
    else (modeInitial c, some (quadMouvement m chiffres))
  | .enTransformation t =>
    if c ∈ touchesMouvement then (.neutre, some (quadTransformation t c))
    else (modeInitial c, none)

/-- End of input: a pending movement match is complete (its digit group may be
empty); a pending transformation key has no direction key and matches
nothing. -/
def finirScan : ModeScan → List QuadExtraction
  | .enMouvement m chiffres => [quadMouvement m chiffres]
  | _ => []

/-- The scan loop over the remaining characters. -/
def chercherToutAux : ModeScan → List Char → List QuadExtraction
  | mode, [] => finirScan mode
  | mode, c :: reste =>
    match pasScan mode c with
    | (mode2, some quad) => quad :: chercherToutAux mode2 reste
    | (mode2, none) => chercherToutAux mode2 reste

/-- All matches of `extraction_controle_compile.findall(saisie)`, in order.
Python has a backtracking regex engine; this is the equivalent single-pass
scanner for this particular pattern (both alternatives start with disjoint
one-character key sets, and digits can never start a match, so non-overlapping
left-to-right matching needs no further backtracking). -/
def chercherTout (l : List Char) : List QuadExtraction :=
  chercherToutAux .neutre l

/-- Embedding of `controle.extraire`: expand each movement match to
`int(repetition)` copies of the key when the digit group is nonempty, one copy
otherwise; keep each transformation match as a 2-character command. -/
def extraire (saisie : String) : List String :=
  (chercherTout saisie.data).foldr
    (fun quad commandes =>
      match quad with
      | (mouvement, repetition, transformation, direction) =>
        if mouvement ≠ [] then
          if repetition ≠ [] then
            List.replicate (valeurChiffres repetition) (String.mk mouvement) ++ commandes
          else
            String.mk mouvement :: commandes
        else
          String.mk (transformation ++ direction) :: commandes)
    []

/-- Embedding of `controle.obtenir_controle` on the commands produced by
`extraire`: a 1-character command is a movement, a 2-character command is a
transformation followed by a direction.  The `KeyError` that Python would
raise on any other string is modelled by `none` (unreachable from `extraire`
output). -/
def obtenirControle (commande : String) : Option (Coordonnees × Option Transformer) :=
  match commande.data with
  | [m] => (directionDe m).map (fun d => (d, none))
  | [t, m] =>
    match transformerDe t, directionDe m with
    | some tr, some d => some (d, some tr)
    | _, _ => none
  | _ => none

/-! ### Players (`lib/joueur.py`) -/

/-- Embedding of the `Joueur` object state: identity token, name, current
coordinate (initialised to `(0, 0)`), FIFO command queue. -/
structure Joueur where
  identifiantClient : Nat
  nom : String
  coordonnees : Coordonnees := (0, 0)
  commandes : List String := []
  deriving DecidableEq, Repr

/-! ### Rules (`lib/regle.py`) -/

/-- Embedding of the rule snapshot `Etat` fields computed by `Etat.__init__`. -/
structure EtatRegle where
  coordonneesObstacle : Coordonnees
  obstacle : Element
  transformation : Option Transformer
  coordonneesAdversaires : List Coordonnees
  deriving DecidableEq, Repr

/-- Embedding of `Etat.__init__`: target coordinate from the mover plus the
direction; the element there with grid-or-default resolution; the transform
tag; the opponents' coordinates. -/
def construireEtat (direction : Coordonnees) (transformation : Option Transformer)
    (grille : List (Coordonnees × Element)) (joueur : Joueur)
    (adversaires : List Joueur) : EtatRegle :=
  { coordonneesObstacle :=
      (joueur.coordonnees.1 + direction.1, joueur.coordonnees.2 + direction.2)
    obstacle :=
      resoudre grille (joueur.coordonnees.1 + direction.1, joueur.coordonnees.2 + direction.2)
    transformation := transformation
    coordonneesAdversaires := adversaires.map Joueur.coordonnees }

/-- Outcome of running rules: normal return, `HorsRegles(raison)`, or
`PartieGagnee`. -/
inductive Issue where
  | ok
  | horsRegles (raison : String)
  | partieGagnee
  deriving DecidableEq, Repr

/-- Names of the four rule functions registered by the `@lister_regles`
decorators in `regle.py`. -/
inductive Regle where
  | traverser
  | rencontrer
  | gagner
  | transformer
  deriving DecidableEq, Repr

/-- Embedding of one rule function applied to a snapshot.  Each branch mirrors
the body of the corresponding decorated function. -/
def appliquerRegle (etat : EtatRegle) : Regle → Issue
  | .traverser =>
    if etat.obstacle.traversable then .ok
    else .horsRegles ("Vous ne pouvez pas traverser " ++ etat.obstacle.description ++ " !")
  | .rencontrer =>
    if etat.coordonneesObstacle ∈ etat.coordonneesAdversaires then
      .horsRegles ("Un joueur occupe déjà " ++ etat.obstacle.description ++ " !")
    else .ok
  | .gagner =>
    if etat.obstacle.gagnable then .partieGagnee else .ok
  | .transformer =>
    match etat.transformation with
    | some t =>
      if estDeFamille etat.obstacle t then .ok
      else .horsRegles ("Vous ne pouvez pas " ++ t.description ++ " "
        ++ etat.obstacle.description ++ " !")
    | none => .ok

/-- Contents of the registry `regles_mouvement` in registration order
(the order the decorated definitions execute in `regle.py`). -/
def reglesMouvement : List Regle := [.traverser, .rencontrer, .gagner]

/-- Contents of the registry `regles_transformation` in registration order
(`rencontrer_un_adversaire` carries both decorators). -/
def reglesTransformation : List Regle := [.rencontrer, .transformer]

/-- Evaluation of a list of rules: the first raised exception aborts the
remaining rules (Python exception propagation out of the `for` loop). -/
def appliquerRegles (etat : EtatRegle) : List Regle → Issue
  | [] => .ok
  | r :: rs =>
    match appliquerRegle etat r with
    | .ok => appliquerRegles etat rs
    | issue => issue

/-- Embedding of `verifier_regles`: pick the movement registry when no
transformation is requested, the transformation registry otherwise.  The
registries are Python `set`s, so the evaluation order is an arbitrary
iteration order `ordreMouvement` / `ordreTransformation`; theorems constrain
those to permutations of the registered rules. -/
def verifierRegles (ordreMouvement ordreTransformation : List Regle)
    (etat : EtatRegle) : Issue :=
  if etat.transformation.isSome then appliquerRegles etat ordreTransformation
  else appliquerRegles etat ordreMouvement

/-! ### The maze state machine (`lib/labyrinthe.py`)

Client identities (`identifiant_client`, `Any` in Python) are modelled as
`Nat`.  Player objects are mutable and aliased between `dict_client_joueur`
and `liste_joueurs`, so object identity is modelled with numeric object ids
(`IdJoueur`) allocated by a counter, the objects living in the heap
`joueurs`.  Python never garbage-collects a player referenced by `vainqueur`,
so heap entries are never deleted. -/

abbrev IdJoueur := Nat

/-- One entry of the `datagrammes` list: `(identifiant_client, categorie,
message)`. -/
abbrev Datagramme := Nat × String × Option String

/-- Association-list lookup with decidable key equality (Python `d[k]` with a
`KeyError` modelled as `none`). -/
def assocTrouver {κ α : Type} [DecidableEq κ] (cle : κ) : List (κ × α) → Option α
  | [] => none
  | (k, v) :: reste => if k = cle then some v else assocTrouver cle reste

/-- Python dict assignment `d[k] = v`: replace the value of an existing key in
place, otherwise append (insertion order semantics). -/
def assocInserer {κ α : Type} [DecidableEq κ] (cle : κ) (valeur : α) :
    List (κ × α) → List (κ × α)
  | [] => [(cle, valeur)]
  | (k, v) :: reste =>
    if k = cle then (k, valeur) :: reste else (k, v) :: assocInserer cle valeur reste

/-- Python `d.pop(k)` / `del d[k]` (total: no-op when the key is absent, as in
the `try: del ... except KeyError: pass` of `jouer`). -/
def assocEffacer {κ α : Type} [DecidableEq κ] (cle : κ) :
    List (κ × α) → List (κ × α)
  | [] => []
  | (k, v) :: reste => if k = cle then reste else (k, v) :: assocEffacer cle reste

/-- In-place mutation of the object stored under a key. -/
def assocModifier {κ α : Type} [DecidableEq κ] (cle : κ) (f : α → α) :
    List (κ × α) → List (κ × α)
  | [] => []
  | (k, v) :: reste =>
    if k = cle then (k, f v) :: reste else (k, v) :: assocModifier cle f reste

/-- The class constants `debut_de_partie`, `jeu_en_cours`, `fin_de_partie`. -/
def debutDePartie : Nat := 0

/-- Mode value while the game is running. -/
def jeuEnCours : Nat := 1

/-- Mode value once the game is over. -/
def finDePartie : Nat := 2

/-- Embedding of the `Labyrinthe` instance state. -/
structure Labyrinthe where
  nomLabyrinthe : String
  grille : List (Coordonnees × Element)
  sorties : List Coordonnees
  departs : List Coordonnees
  caracteresInconnus : List Char
  joueurs : List (IdJoueur × Joueur)
  compteur : Nat
  dictClientJoueur : List (Nat × IdJoueur)
  listeJoueurs : List IdJoueur
  joueurCourant : Option IdJoueur
  mode : Nat
  vainqueur : Option IdJoueur
  datagrammes : List Datagramme
  deriving DecidableEq, Repr

/-- Dereference a player object id.  Every id stored in the roster structures
was allocated with a heap entry, so the default object is never reached from
states built through the operations below. -/
def joueurDe (s : Labyrinthe) (id : IdJoueur) : Joueur :=
  (assocTrouver id s.joueurs).getD { identifiantClient := 0, nom := "" }

/-- Decoding loop of `_creer_labyrinthe` for one character at one coordinate:
uppercase, decode through `Elements.decryptable` with the default element and
the unknown-character set on `KeyError`, record `Gagnable` coordinates as
exits, store `Decrypte` elements in the grid.  `caracteres_inconnus` is a
Python `set`, modelled as a duplicate-free list. -/
def decoderCaractere
    (acc : List (Coordonnees × Element) × List Coordonnees × List Char)
    (pos : Coordonnees) (caractere : Char) :
    List (Coordonnees × Element) × List Coordonnees × List Char :=
  let (grille, sorties, inconnus) := acc
  let (obstacle, inconnus2) :=
    match decryptable caractere.toUpper with
    | some o => (o, inconnus)
    | none =>
      (obstacleParDefaut,
        if caractere.toUpper ∈ inconnus then inconnus else inconnus ++ [caractere.toUpper])
  let sorties2 := if obstacle.gagnable then sorties ++ [pos] else sorties
  let grille2 := if obstacle.decrypte then grille ++ [(pos, obstacle)] else grille
  (grille2, sorties2, inconnus2)

/-- Splitting loop behind `decouperLignes`: cut at each newline; a newline
ending the text closes the last line without opening an empty one. -/
def decouperAux (courante : List Char) : List Char → List (List Char)
  | [] => [courante]
  | c :: reste =>
    if c = '\n' then
      courante :: (if reste = [] then [] else decouperAux [] reste)
    else decouperAux (courante ++ [c]) reste

/-- Embedding of `str.splitlines()` restricted to `'\n'` separators (the form
map strings take here): no line for the empty string, no trailing empty line
for text ending in a newline. -/
def decouperLignes (l : List Char) : List (List Char) :=
  if l = [] then [] else decouperAux [] l

/-- Embedding of `_creer_labyrinthe`: enumerate lines and characters and
decode each one. -/
def creerLabyrinthe (chaine : String) :
    List (Coordonnees × Element) × List Coordonnees × List Char :=
  ((decouperLignes chaine.data).enum).foldl
    (fun acc ligneNumerotee =>
      (ligneNumerotee.2.enum).foldl
        (fun acc2 caractereNumerote =>
          decoderCaractere acc2
            ((caractereNumerote.1 : Int), (ligneNumerotee.1 : Int))
            caractereNumerote.2)
        acc)
    ([], [], [])

/-- Embedding of `_dimensionner`: bounding box of the grid coordinates, plus
the player coordinates once the game has started; `((0,0), (0,0))` for an
empty list.  Python extracts the extrema by sorting; folding `min`/`max`
yields the same values. -/
def dimensionner (s : Labyrinthe) : Coordonnees × Coordonnees :=
  let listeCoordonnees :=
    s.grille.map Prod.fst ++
      (if jeuEnCours ≤ s.mode then s.listeJoueurs.map (fun id => (joueurDe s id).coordonnees)
       else [])
  match listeCoordonnees with
  | [] => ((0, 0), (0, 0))
  | c :: reste =>
    reste.foldl
      (fun bornes p =>
        ((min bornes.1.1 p.1, min bornes.1.2 p.2), (max bornes.2.1 p.1, max bornes.2.2 p.2)))
      ((c.1, c.2), (c.1, c.2))

/-- The movement vectors `Mouvement.directions`.  The source keeps them in a
Python `set`; its iteration order only permutes the discovery order inside one
distance band of the search below, which the band shuffle re-randomises
anyway, so the instantiation order `N`, `S`, `E`, `O` is used. -/
def directionsMouvement : List Coordonnees := [(0, -1), (0, 1), (1, 0), (-1, 0)]

/-- Inner body of `_determiner_departs` for one candidate coordinate: keep it
when inside the bounding box and not met before; a `Demarrable` element is a
start at distance `d+1`, a merely `Traversable` element extends the search at
`d+1`, an element `Transformable` into a `Traversable` one extends it at
`d+2`, anything else is a dead end. -/
def traiterCoordonnee (grille : List (Coordonnees × Element))
    (boite : Coordonnees × Coordonnees) (distance : Nat)
    (etatParcours : List (Coordonnees × Nat) × List Coordonnees)
    (coordonnees : Coordonnees) :
    List (Coordonnees × Nat) × List Coordonnees :=
  let (listePositions, departsNiveau) := etatParcours
  if boite.1.1 ≤ coordonnees.1 ∧ coordonnees.1 ≤ boite.2.1 ∧
      boite.1.2 ≤ coordonnees.2 ∧ coordonnees.2 ≤ boite.2.2 then
    if (assocTrouver coordonnees listePositions).isSome then etatParcours
    else
      let terrain := resoudre grille coordonnees
      if terrain.demarrable then
        (listePositions ++ [(coordonnees, distance + 1)], departsNiveau ++ [coordonnees])
      else if terrain.traversable then
        (listePositions ++ [(coordonnees, distance + 1)], departsNiveau)
      else
        match terrain.transformee with
        | some transformee =>
          if transformee.traversable then
            (listePositions ++ [(coordonnees, distance + 2)], departsNiveau)
          else etatParcours
        | none => etatParcours
  else etatParcours

/-- The two nested `for` loops of `_determiner_departs` over the positions of
the current distance band and the movement directions. -/
def parcourirPositions (grille : List (Coordonnees × Element))
    (boite : Coordonnees × Coordonnees) (distance : Nat) :
    List Coordonnees → List (Coordonnees × Nat) × List Coordonnees →
    List (Coordonnees × Nat) × List Coordonnees
  | [], etatParcours => etatParcours
  | position :: autres, etatParcours =>
    parcourirPositions grille boite distance autres
      (directionsMouvement.foldl
        (fun acc direction =>
          traiterCoordonnee grille boite distance acc
            (position.1 + direction.1, position.2 + direction.2))
        etatParcours)

/-- The `while` loop of `_determiner_departs`, one distance band per
iteration: as long as some recorded position has an index at or beyond the
current distance, visit the band, shuffle its starts (`melange`, only applied
when nonempty as in the source) and append them, then advance the distance.
The loop always terminates (positions are confined to the bounding box and
receive indices at most `distance + 2`); `fuel` makes this explicit and is
chosen large enough at the call site. -/
def parcoursNiveaux (grille : List (Coordonnees × Element))
    (boite : Coordonnees × Coordonnees)
    (melange : List Coordonnees → List Coordonnees) :
    Nat → Nat → List (Coordonnees × Nat) → List Coordonnees → List Coordonnees
  | 0, _, _, departs => departs
  | fuel + 1, distance, listePositions, departs =>
    if listePositions.any (fun pi => decide (distance ≤ pi.2)) then
      let positionsTestees :=
        (listePositions.filter (fun pi => pi.2 = distance)).map Prod.fst
      let (listePositions2, departsNiveau) :=
        parcourirPositions grille boite distance positionsTestees (listePositions, [])
      let departs2 := if departsNiveau ≠ [] then departs ++ melange departsNiveau else departs
      parcoursNiveaux grille boite melange fuel (distance + 1) listePositions2 departs2
    else departs

/-- Embedding of `_determiner_departs`: seed every exit at distance `0` and
run the band search.  `random.shuffle` becomes the explicit reordering
function `melange`. -/
def determinerDeparts (melange : List Coordonnees → List Coordonnees)
    (s : Labyrinthe) : List Coordonnees :=
  let (cmin, cmax) := dimensionner s
  let taille := ((cmax.1 - cmin.1).toNat + 1) * ((cmax.2 - cmin.2).toNat + 1)
  parcoursNiveaux s.grille (cmin, cmax) melange (2 * taille + 3) 0
    (s.sorties.map (fun sortie => (sortie, 0))) []

/-- Embedding of `Labyrinthe.__init__`: initialise the fields, decode the map,
compute the ranked start positions. -/
def Labyrinthe.init (melange : List Coordonnees → List Coordonnees)
    (chaine : String) (nom : String) : Labyrinthe :=
  let (grille, sorties, inconnus) := creerLabyrinthe chaine
  let s0 : Labyrinthe :=
    { nomLabyrinthe := nom, grille := grille, sorties := sorties, departs := []
      caracteresInconnus := inconnus, joueurs := [], compteur := 0
      dictClientJoueur := [], listeJoueurs := [], joueurCourant := none
      mode := debutDePartie, vainqueur := none, datagrammes := [] }
  { s0 with departs := determinerDeparts melange s0 }

/-- Embedding of `est_ouvert`. -/
def estOuvert (s : Labyrinthe) : Bool :=
  s.listeJoueurs.length < s.departs.length

/-- Embedding of `_ajouter_joueur`: in the lobby with room left, allocate a
fresh player at `(0, 0)`, store it under the client id and append it to the
turn list, returning it; otherwise return `None` and change nothing. -/
def ajouterJoueurInterne (s : Labyrinthe) (identifiantClient : Nat) (nom : String) :
    Option IdJoueur × Labyrinthe :=
  if s.mode = debutDePartie ∧ estOuvert s then
    let id := s.compteur
    let joueur : Joueur := { identifiantClient := identifiantClient, nom := nom }
    (some id,
      { s with joueurs := s.joueurs ++ [(id, joueur)]
               compteur := s.compteur + 1
               dictClientJoueur := assocInserer identifiantClient id s.dictClientJoueur
               listeJoueurs := s.listeJoueurs ++ [id] })
  else (none, s)

/-- The Python rendering constant `str(element.Robot)`. -/
def symboleRobot : String := "X"

/-- The Python rendering constant `str(element.Adversaire)`. -/
def symboleAdversaire : String := "x"

/-- Integer range `range(a, b + 1)`. -/
def plageInt (a b : Int) : List Int :=
  (List.range (b + 1 - a).toNat).map (fun i => a + (i : Int))

/-- Embedding of `_afficher_plateau`: render the bounding box row by row; once
the game has started and a viewing player is given, that player's coordinate
shows the robot, the other players show an adversary, every other coordinate
shows its grid-or-default element. -/
def afficherPlateauChaine (s : Labyrinthe) (joueur : Option IdJoueur) : String :=
  let bornes := dimensionner s
  let cmin := bornes.1
  let cmax := bornes.2
  let paire : Option Coordonnees × List Coordonnees :=
    match joueur with
    | some id =>
      if jeuEnCours ≤ s.mode then
        (some (joueurDe s id).coordonnees,
          (s.listeJoueurs.erase id).map (fun a => (joueurDe s a).coordonnees))
      else (none, [])
    | none => (none, [])
  let coordonneesJoueur := paire.1
  let coordonneesAdversaires := paire.2
  String.join
    ((plageInt cmin.2 cmax.2).map (fun ordonnee =>
      String.join
        ((plageInt cmin.1 cmax.1).map (fun abscisse =>
          if some (abscisse, ordonnee) = coordonneesJoueur then symboleRobot
          else if (abscisse, ordonnee) ∈ coordonneesAdversaires then symboleAdversaire
          else (resoudre s.grille (abscisse, ordonnee)).symboleAffichage))
        ++ "\n"))

/-- Embedding of the public `afficher_plateau`: for every client, its rendered
board followed by an empty line. -/
def afficherPlateau (s : Labyrinthe) : Labyrinthe :=
  { s with datagrammes := s.datagrammes ++
      (s.dictClientJoueur.map (fun kv =>
        [(kv.1, "affichage", some (afficherPlateauChaine s (some kv.2))),
         (kv.1, "affichage", some "")])).flatten }

/-- Embedding of `a_qui_de_jouer`: while the game is not over, tell the head
player of the turn list it is their turn and tell everyone else whose turn it
is.  (`liste_joueurs[0]` exists whenever the client map is nonempty in states
built by the operations.) -/
def aQuiDeJouer (s : Labyrinthe) : Labyrinthe :=
  if s.mode < finDePartie then
    { s with datagrammes := s.datagrammes ++
        s.dictClientJoueur.map (fun kv =>
          if s.listeJoueurs.head? = some kv.2 then
            (kv.1, "affichage", some "C\x27est à Vous de jouer")
          else
            (kv.1, "affichage",
              some ("C\x27est à " ++ (joueurDe s (s.listeJoueurs.headD 0)).nom ++ " de jouer"))) }
  else s

/-- Embedding of the public `ajouter_joueur`: on success, append the welcome
datagrams (including a board rendered with no viewing player). -/
def Labyrinthe.ajouterJoueur (s : Labyrinthe) (identifiantClient : Nat) (nom : String) :
    Labyrinthe :=
  match ajouterJoueurInterne s identifiantClient nom with
  | (some _, s2) =>
    { s2 with datagrammes := s2.datagrammes ++
        [(identifiantClient, "affichage", some ""),
         (identifiantClient, "affichage", some ("Bienvenue, " ++ nom ++ ".")),
         (identifiantClient, "affichage",
           some ("Vous jouez sur le labyrinthe \x27" ++ s2.nomLabyrinthe ++ "\x27")),
         (identifiantClient, "affichage", some (afficherPlateauChaine s2 none))] }
  | (none, s2) => s2

/-- Embedding of `_effacer_joueur`: drop the player from the client map and
the turn list; once the game has started, a roster of at most one player ends
the game, the survivor (if any) becoming the winner (`IndexError` swallowed
when the roster emptied).  The `KeyError` Python raises for an unknown client
id is modelled by returning the state unchanged; completed calls have the id
present. -/
def effacerJoueurInterne (s : Labyrinthe) (identifiantClient : Nat) : Labyrinthe :=
  match assocTrouver identifiantClient s.dictClientJoueur with
  | none => s
  | some id =>
    let s2 := { s with dictClientJoueur := assocEffacer identifiantClient s.dictClientJoueur
                       listeJoueurs := s.listeJoueurs.erase id }
    if jeuEnCours ≤ s2.mode then
      if s2.listeJoueurs.length ≤ 1 then
        match s2.listeJoueurs with
        | premier :: _ => { s2 with mode := finDePartie, vainqueur := some premier }
        | [] => { s2 with mode := finDePartie }
      else s2
    else s2

/-- Embedding of the public `effacer_joueur`: remove the player, then, if the
game had started, tell the remaining clients and re-broadcast the board and
the turn. -/
def Labyrinthe.effacerJoueur (s : Labyrinthe) (identifiantClient : Nat) : Labyrinthe :=
  match assocTrouver identifiantClient s.dictClientJoueur with
  | none => s
  | some id =>
    let nom := (joueurDe s id).nom
    let s2 := effacerJoueurInterne s identifiantClient
    if jeuEnCours ≤ s2.mode then
      aQuiDeJouer (afficherPlateau
        { s2 with datagrammes := s2.datagrammes ++
            s2.dictClientJoueur.map (fun kv =>
              (kv.1, "affichage", some (nom ++ " a quitté la partie."))) })
    else s2

/-- The regex `controle.validation_controle` built at module load. -/
def validationControle : String := "((([NSEO])([0-9]*))|(([MP])([NSEO])))+"

/-- The list `Controle.descriptions` built by the six instantiations in
`controle.py`. -/
def descriptionsControles : List String :=
  ["N - Se déplacer vers le Nord - Usage: N[0-99]",
   "S - Se déplacer vers le Sud - Usage: S[0-99]",
   "E - Se déplacer vers l\x27Est - Usage: E[0-99]",
   "O - Se déplacer vers l\x27Ouest - Usage: O[0-99]",
   "M - Murer un obstacle - Usage: M<NSEO>",
   "P - Percer un obstacle - Usage: P<NSEO>"]

/-- Assignment loop of `demarrer`: the players of the second draw receive the
consecutive start positions from `indice` on (the caller guarantees the
indices stay in range, as `randint`'s bounds do in the source). -/
def affecterDeparts (joueurs : List (IdJoueur × Joueur)) (departs : List Coordonnees)
    (indice : Nat) : List IdJoueur → List (IdJoueur × Joueur)
  | [] => joueurs
  | id :: reste =>
    affecterDeparts
      (assocModifier id (fun j => { j with coordonnees := departs.getD indice (0, 0) }) joueurs)
      departs (indice + 1) reste

/-- Embedding of `demarrer`.  The call `randint(0, len(departs) - len(roster))`
becomes the parameter `indice`; the two `sample(liste_joueurs,
len(liste_joueurs))` draws become `premierTirage` (assigned to
`liste_joueurs`) and `secondTirage` (iterated to assign start positions);
theorems constrain them to permutations as `sample` guarantees. -/
def Labyrinthe.demarrer (s : Labyrinthe) (indice : Nat)
    (premierTirage secondTirage : List IdJoueur) : Labyrinthe :=
  let s1 := { s with mode := jeuEnCours, listeJoueurs := premierTirage }
  let s2 := { s1 with joueurs := affecterDeparts s1.joueurs s1.departs indice secondTirage }
  let s3 := { s2 with datagrammes := s2.datagrammes ++
      (s2.dictClientJoueur.map (fun kv =>
        [(kv.1, "validation_schema", some validationControle),
         (kv.1, "validation_erreur", some "Cette saisie n\x27est pas valide !"),
         (kv.1, "affichage",
           some ("La partie commence! Vous êtes " ++ toString s2.listeJoueurs.length
             ++ " joueurs"))]
        ++ descriptionsControles.map (fun d => (kv.1, "affichage", some d)))).flatten }
  aQuiDeJouer (afficherPlateau s3)

/-- Embedding of `ajouter_commande`: parse the input, extend the player's
queue, and echo the parsed commands when the queue is nonempty.  The
`KeyError` for an unknown client id is modelled by returning the state
unchanged. -/
def Labyrinthe.ajouterCommande (s : Labyrinthe) (identifiantClient : Nat)
    (saisie : String) : Labyrinthe :=
  match assocTrouver identifiantClient s.dictClientJoueur with
  | none => s
  | some id =>
    let commandes := extraire saisie
    let s2 := { s with
      joueurs :=
        assocModifier id (fun j => { j with commandes := j.commandes ++ commandes }) s.joueurs }
    if (joueurDe s2 id).commandes ≠ [] then
      { s2 with datagrammes := s2.datagrammes ++
          [(identifiantClient, "affichage",
            some ("Commandes :" ++ String.intercalate " " commandes))] }
    else s2

/-- Effect of a validated command in the body of `jouer`: a transformation
(`if instantane.transformation:`) either replaces the target grid cell with
its transform when that transform is a `Decrypte` element, or deletes the
cell (`del` guarded against `KeyError`); a movement updates the current
player's coordinate to the target. -/
def appliquerEffet (instantane : EtatRegle) (transformation : Option Transformer)
    (courant : IdJoueur) (s3 : Labyrinthe) : Labyrinthe :=
  match transformation with
  | some _ =>
    match instantane.obstacle.transformee with
    | some transformee =>
      if transformee.decrypte then
        { s3 with grille :=
            assocInserer instantane.coordonneesObstacle transformee s3.grille }
      else
        { s3 with grille := assocEffacer instantane.coordonneesObstacle s3.grille }
    | none =>
      { s3 with grille := assocEffacer instantane.coordonneesObstacle s3.grille }
  | none =>
    { s3 with
      joueurs :=
        assocModifier courant
          (fun j => { j with coordonnees := instantane.coordonneesObstacle })
          s3.joueurs }

/-- Result of one iteration of the `while` loop of `jouer`: leave the loop
(`break`, or the loop condition turning false is handled by the caller) or go
round again (`continue` or normal completion of the body). -/
inductive PasJouer where
  | sortir (s : Labyrinthe)
  | continuer (s : Labyrinthe)

/-- One iteration of the body of `jouer`: pop the head player; with no pending
command, re-insert them at the head and `break`.  Otherwise pop their first
command, build the rule snapshot (opponents are the remaining turn list) and
check the rules.  On `HorsRegles`, send the reason to the offender only,
re-insert them at the head and `continue`.  On `PartieGagnee`, end the game
and record the winner — and then, like the source (whose `except
PartieGagnee` clause does not leave the iteration), fall through to the
effect.  The effect of a transformation replaces the target cell by its
`Decrypte` transform or deletes it; the effect of a movement updates the
player's coordinate.  Finally the player goes to the tail of the turn list
and board and turn announcements are broadcast.

Two Python error paths are modelled as leaving the state untouched because
completed calls never reach them: `pop(0)` on an empty turn list
(`IndexError`), and `obtenir_controle` on a command not produced by
`extraire` (`KeyError`). -/
def jouerEtape (ordreMouvement ordreTransformation : List Regle) (s : Labyrinthe) :
    PasJouer :=
  match s.listeJoueurs with
  | [] => .sortir s
  | courant :: resteJoueurs =>
    let s1 := { s with listeJoueurs := resteJoueurs, joueurCourant := some courant }
    match (joueurDe s1 courant).commandes with
    | [] =>
      .sortir { s1 with listeJoueurs := courant :: resteJoueurs, joueurCourant := none }
    | commande :: resteCommandes =>
      let s2 := { s1 with
        joueurs :=
          assocModifier courant (fun j => { j with commandes := resteCommandes }) s1.joueurs }
      match obtenirControle commande with
      | none => .sortir s
      | some (direction, transformation) =>
        let instantane :=
          construireEtat direction transformation s2.grille (joueurDe s2 courant)
            (resteJoueurs.map (joueurDe s2))
        match verifierRegles ordreMouvement ordreTransformation instantane with
        | .horsRegles raison =>
          .continuer { s2 with
            datagrammes := s2.datagrammes ++
              [((joueurDe s2 courant).identifiantClient, "affichage", some raison)]
            listeJoueurs := courant :: resteJoueurs
            joueurCourant := none }
        | issue =>
          let s3 :=
            if issue = .partieGagnee then
              { s2 with mode := finDePartie, vainqueur := some courant }
            else s2
          let s4 := appliquerEffet instantane transformation courant s3
          let s5 := { s4 with listeJoueurs := s4.listeJoueurs ++ [courant]
                              joueurCourant := none }
          .continuer (aQuiDeJouer (afficherPlateau s5))

/-- The state carried by a loop-iteration result, whichever way the iteration
ended. -/
def etatDePas : PasJouer → Labyrinthe
  | .sortir s => s
  | .continuer s => s

/-- The `while self.mode < self.fin_de_partie` loop of `jouer`, fuel-indexed.
Every `continuer` iteration consumes one queued command, so the fuel chosen in
`Labyrinthe.jouer` never runs out before the loop exits by itself. -/
def jouerAux (ordreMouvement ordreTransformation : List Regle) :
    Nat → Labyrinthe → Labyrinthe
  | 0, s => s
  | fuel + 1, s =>
    if s.mode < finDePartie then
      match jouerEtape ordreMouvement ordreTransformation s with
      | .sortir s2 => s2
      | .continuer s2 => jouerAux ordreMouvement ordreTransformation fuel s2
    else s

/-- Total number of queued commands across the heap, a bound on the number of
`continuer` iterations of `jouer`. -/
def totalCommandes (s : Labyrinthe) : Nat :=
  (s.joueurs.map (fun kv => kv.2.commandes.length)).sum

/-- Embedding of `jouer`.  The rule registries are Python `set`s; the
iteration orders used by `verifier_regles` are the parameters
`ordreMouvement` / `ordreTransformation`. -/
def Labyrinthe.jouer (ordreMouvement ordreTransformation : List Regle)
    (s : Labyrinthe) : Labyrinthe :=
  jouerAux ordreMouvement ordreTransformation (totalCommandes s + 1) s

/-- Embedding of `terminer`: for each client, the winner announcement (none
when there is no winner) followed by the terminal `fin` datagram. -/
def Labyrinthe.terminer (s : Labyrinthe) : Labyrinthe :=
  { s with datagrammes := s.datagrammes ++
      (s.dictClientJoueur.map (fun kv =>
        (match s.vainqueur with
         | some v =>
           if v = kv.2 then [(kv.1, "affichage", some "Vous avez gagné la partie !")]
           else [(kv.1, "affichage", some ((joueurDe s v).nom ++ " a gagné la partie !"))]
         | none => []) ++ [(kv.1, "fin", none)])).flatten }

/-! ### Reachable states and the roster invariant

`Atteignable` captures the states produced by the constructor followed by
completed calls to the public operations: the side conditions exclude exactly
the calls that raise in Python and hence do not complete (`KeyError` on an
unknown client id, `IndexError`/`ValueError` when `jouer` or `demarrer` is
invoked on an impossible roster) and make explicit the guarantees of the
`random` module (`sample` returns a permutation, `randint` stays in its
bounds) and of set iteration (some order on the registered rules).
`ajouterJoueur` completes on a duplicate client id too; the freshness side
condition here is the amendment the roster invariant requires. -/

/-- Invariant relating the turn list to the client map: the turn list is a
permutation of the players stored as values of the map, and no current player
is recorded between calls. -/
def invariantRoster (s : Labyrinthe) : Prop :=
  s.listeJoueurs.Perm (s.dictClientJoueur.map Prod.snd) ∧ s.joueurCourant = none

/-- States reachable from construction through completed public calls, with
fresh client ids on every join. -/
inductive Atteignable : Labyrinthe → Prop where
  | init (melange : List Coordonnees → List Coordonnees) (chaine nom : String) :
      Atteignable (Labyrinthe.init melange chaine nom)
  | ajouter (s : Labyrinthe) (identifiantClient : Nat) (nom : String) :
      Atteignable s → assocTrouver identifiantClient s.dictClientJoueur = none →
      Atteignable (s.ajouterJoueur identifiantClient nom)
  | effacer (s : Labyrinthe) (identifiantClient : Nat) :
      Atteignable s → (assocTrouver identifiantClient s.dictClientJoueur).isSome →
      Atteignable (s.effacerJoueur identifiantClient)
  | demarrer (s : Labyrinthe) (indice : Nat) (premierTirage secondTirage : List IdJoueur) :
      Atteignable s → premierTirage.Perm s.listeJoueurs → secondTirage.Perm premierTirage →
      indice + premierTirage.length ≤ s.departs.length →
      Atteignable (s.demarrer indice premierTirage secondTirage)
  | commande (s : Labyrinthe) (identifiantClient : Nat) (saisie : String) :
      Atteignable s → (assocTrouver identifiantClient s.dictClientJoueur).isSome →
      Atteignable (s.ajouterCommande identifiantClient saisie)
  | jouer (s : Labyrinthe) (ordreMouvement ordreTransformation : List Regle) :
      Atteignable s → ordreMouvement.Perm reglesMouvement →
      ordreTransformation.Perm reglesTransformation →
      (s.listeJoueurs ≠ [] ∨ finDePartie ≤ s.mode) →
      Atteignable (Labyrinthe.jouer ordreMouvement ordreTransformation s)
  | terminer (s : Labyrinthe) : Atteignable s → Atteignable s.terminer

/-! ### Concrete maps and runs used by counterexamples and witnesses

In `carteUnDepart` the only exit is at `(2, 0)`; the single start computed by
the band search is the off-grid gap `(1, 1)` (resolving to `Sol`), one door
away from the exit.  `carteDeuxDeparts` adds a second gap `(1, 2)`, giving two
ranked starts. -/

/-- Map with exactly one computed start position. -/
def carteUnDepart : String := "O.U\nO O\nOOO"

/-- Map with exactly two computed start positions. -/
def carteDeuxDeparts : String := "O.U\nO O\nO O\nOOO"

/-- Lobby with one player (client `1`, object id `0`) on `carteUnDepart`,
built with the identity band shuffle. -/
def lobbyUnJoueur : Labyrinthe :=
  (Labyrinthe.init id carteUnDepart "essai").ajouterJoueur 1 "a"

/-- Game just before the winning turn: the single player stands on the start
`(1, 1)` with the parsed commands `["N", "E"]` queued. -/
def partieAvantGain : Labyrinthe :=
  ((lobbyUnJoueur.demarrer 0 [0] [0]).ajouterCommande 1 "NE")

/-- The run of `jouer` (with the registration iteration orders) that wins the
game: `N` moves through the door to `(1, 0)`, `E` lands on the exit. -/
def partieApresGain : Labyrinthe :=
  Labyrinthe.jouer reglesMouvement reglesTransformation partieAvantGain

/-- Game one step before the win: the `N` command already executed (the
player reached `(1, 0)`), the command `E` towards the exit is queued. -/
def partieAuBordDuGain : Labyrinthe :=
  (Labyrinthe.jouer reglesMouvement reglesTransformation
    ((lobbyUnJoueur.demarrer 0 [0] [0]).ajouterCommande 1 "N")).ajouterCommande 1 "E"

/-- Lobby with two players (clients `1`, `2`, object ids `0`, `1`) on
`carteDeuxDeparts`. -/
def lobbyDeuxJoueurs : Labyrinthe :=
  ((Labyrinthe.init id carteDeuxDeparts "essai").ajouterJoueur 1 "a").ajouterJoueur 2 "b"

/-- The state after client id `1` joins twice in a row: both calls complete,
the client map holds only the second player object while the turn list holds
both. -/
def rosterDuplique : Labyrinthe :=
  ((Labyrinthe.init id carteDeuxDeparts "essai").ajouterJoueur 1 "a").ajouterJoueur 1 "b"

/-- Two-player game under way: both players were assigned their start
positions and the turn order is `[0, 1]`. -/
def partieDeuxJoueurs : Labyrinthe :=
  lobbyDeuxJoueurs.demarrer 0 [0, 1] [0, 1]

/-! ### Helper lemmas -/

theorem assocTrouver_assocModifier {κ α : Type} [DecidableEq κ] (cle k : κ) (f : α → α)
    (l : List (κ × α)) :
    assocTrouver k (assocModifier cle f l) =
      if k = cle then (assocTrouver cle l).map f else assocTrouver k l := by
  induction l with
  | nil => by_cases h : k = cle <;> simp [assocTrouver, assocModifier, h]
  | cons p reste ih =>
    obtain ⟨k2, v⟩ := p
    by_cases h1 : k2 = cle
    · subst h1
      by_cases h2 : k2 = k
      · subst h2
        simp [assocTrouver, assocModifier]
      · have h3 : ¬k = k2 := fun hh => h2 hh.symm
        simp [assocTrouver, assocModifier, h2, h3]
    · by_cases h2 : k2 = k
      · subst h2
        have h3 : ¬k2 = cle := h1
        simp [assocTrouver, assocModifier, h3]
      · simp [assocTrouver, assocModifier, h1, h2, ih]

theorem assocTrouver_assocInserer_absent {κ α : Type} [DecidableEq κ] (cle : κ) (v : α)
    (l : List (κ × α)) (h : assocTrouver cle l = none) :
    assocInserer cle v l = l ++ [(cle, v)] := by
  induction l with
  | nil => simp [assocInserer]
  | cons p reste ih =>
    obtain ⟨k2, w⟩ := p
    by_cases h1 : k2 = cle
    · simp [assocTrouver, h1] at h
    · simp [assocTrouver, h1] at h
      simp [assocInserer, h1, ih h]

theorem map_snd_assocEffacer_perm {κ α : Type} [DecidableEq κ] (cle : κ) (v : α)
    (l : List (κ × α)) (h : assocTrouver cle l = some v) :
    (l.map Prod.snd).Perm (v :: (assocEffacer cle l).map Prod.snd) := by
  induction l with
  | nil => simp [assocTrouver] at h
  | cons p reste ih =>
    obtain ⟨k2, w⟩ := p
    by_cases h1 : k2 = cle
    · simp [assocTrouver, h1] at h
      subst h
      simp [assocEffacer, h1]
    · simp [assocTrouver, h1] at h
      refine List.Perm.trans (List.Perm.cons w (ih h)) ?_
      simp [assocEffacer, h1]
      exact List.Perm.swap v w _

theorem afficherPlateau_joueurs (s : Labyrinthe) : (afficherPlateau s).joueurs = s.joueurs := rfl

theorem afficherPlateau_grille (s : Labyrinthe) : (afficherPlateau s).grille = s.grille := rfl

theorem afficherPlateau_listeJoueurs (s : Labyrinthe) :
    (afficherPlateau s).listeJoueurs = s.listeJoueurs := rfl

theorem afficherPlateau_dictClientJoueur (s : Labyrinthe) :
    (afficherPlateau s).dictClientJoueur = s.dictClientJoueur := rfl

theorem afficherPlateau_mode (s : Labyrinthe) : (afficherPlateau s).mode = s.mode := rfl

theorem afficherPlateau_vainqueur (s : Labyrinthe) :
    (afficherPlateau s).vainqueur = s.vainqueur := rfl

theorem afficherPlateau_joueurCourant (s : Labyrinthe) :
    (afficherPlateau s).joueurCourant = s.joueurCourant := rfl

theorem aQuiDeJouer_joueurs (s : Labyrinthe) : (aQuiDeJouer s).joueurs = s.joueurs := by
  by_cases h : s.mode < finDePartie <;> simp [aQuiDeJouer, h]

theorem aQuiDeJouer_grille (s : Labyrinthe) : (aQuiDeJouer s).grille = s.grille := by
  by_cases h : s.mode < finDePartie <;> simp [aQuiDeJouer, h]

theorem aQuiDeJouer_listeJoueurs (s : Labyrinthe) :
    (aQuiDeJouer s).listeJoueurs = s.listeJoueurs := by
  by_cases h : s.mode < finDePartie <;> simp [aQuiDeJouer, h]

theorem aQuiDeJouer_dictClientJoueur (s : Labyrinthe) :
    (aQuiDeJouer s).dictClientJoueur = s.dictClientJoueur := by
  by_cases h : s.mode < finDePartie <;> simp [aQuiDeJouer, h]

theorem aQuiDeJouer_mode (s : Labyrinthe) : (aQuiDeJouer s).mode = s.mode := by
  by_cases h : s.mode < finDePartie <;> simp [aQuiDeJouer, h]

theorem aQuiDeJouer_vainqueur (s : Labyrinthe) : (aQuiDeJouer s).vainqueur = s.vainqueur := by
  by_cases h : s.mode < finDePartie <;> simp [aQuiDeJouer, h]

theorem aQuiDeJouer_joueurCourant (s : Labyrinthe) :
    (aQuiDeJouer s).joueurCourant = s.joueurCourant := by
  by_cases h : s.mode < finDePartie <;> simp [aQuiDeJouer, h]

theorem transformation_pas_mouvement {t : Char} (h : t ∈ touchesTransformation) :
    t ∉ touchesMouvement := by
  simp only [touchesTransformation, List.mem_cons, List.not_mem_nil, or_false] at h
  rcases h with h | h <;> subst h <;> decide

theorem chercherToutAux_chiffres (m : Char) :
    ∀ (chiffres : List Char) (acc : List Char), (∀ c ∈ chiffres, estChiffre c) →
      chercherToutAux (.enMouvement m acc) chiffres = [quadMouvement m (acc ++ chiffres)]
  | [], acc, _ => by simp [chercherToutAux, finirScan]
  | c :: chiffres, acc, h => by
    have hc : estChiffre c = true := h c (by simp)
    have hreste : ∀ c2 ∈ chiffres, estChiffre c2 := fun c2 hc2 => h c2 (by simp [hc2])
    simp [chercherToutAux, pasScan, hc, chercherToutAux_chiffres m chiffres (acc ++ [c]) hreste]

/-- C6: the command parser maps `"N3E2"` to `["N","N","N","E","E"]`, `"MN"` to
`["MN"]` and `"PS"` to `["PS"]`; a movement key followed by a decimal repeat
count expands to that many copies of the key; a transformation key followed by
a movement key is kept as one 2-character command; and a leading character
that can start neither alternative is dropped silently (the parser is a total
function — no error is raised). -/
theorem extraire_correct :
    extraire "N3E2" = ["N", "N", "N", "E", "E"] ∧
    extraire "MN" = ["MN"] ∧
    extraire "PS" = ["PS"] ∧
    (∀ (m : Char) (chiffres : List Char), m ∈ touchesMouvement → chiffres ≠ [] →
      (∀ c ∈ chiffres, estChiffre c) →
      extraire (String.mk (m :: chiffres)) =
        List.replicate (valeurChiffres chiffres) (String.mk [m])) ∧
    (∀ (t d : Char) (reste : List Char), t ∈ touchesTransformation → d ∈ touchesMouvement →
      extraire (String.mk (t :: d :: reste)) = String.mk [t, d] :: extraire (String.mk reste)) ∧
    (∀ (c : Char) (reste : List Char), c ∉ touchesMouvement → c ∉ touchesTransformation →
      extraire (String.mk (c :: reste)) = extraire (String.mk reste)) := by
  refine ⟨by decide, by decide, by decide, ?_, ?_, ?_⟩
  · intro m chiffres hm hne hch
    simp [extraire, chercherTout, chercherToutAux, pasScan, modeInitial, hm,
      chercherToutAux_chiffres m chiffres [] hch, quadMouvement, hne]
  · intro t d reste ht hd
    simp [extraire, chercherTout, chercherToutAux, pasScan, modeInitial,
      transformation_pas_mouvement ht, ht, hd, quadTransformation]
  · intro c reste hm ht
    simp [extraire, chercherTout, chercherToutAux, pasScan, modeInitial, hm, ht]

/-- Witness for `extraire_correct` at concrete inputs: `"N3"` expands to three
copies of `"N"`, and dropping the unmatched leading `"z"` of `"zMN"` leaves
`["MN"]`. -/
theorem extraire_correct_temoin :
    extraire (String.mk ['N', '3']) = List.replicate (valeurChiffres ['3']) (String.mk ['N']) ∧
    extraire (String.mk ['z', 'M', 'N']) = extraire (String.mk ['M', 'N']) := by
  constructor
  · exact extraire_correct.2.2.2.1 'N' ['3'] (by decide) (by decide) (by decide)
  · exact extraire_correct.2.2.2.2.2 'z' ['M', 'N'] (by decide) (by decide)

/-- C7: `_ajouter_joueur` creates a fresh player and appends it to both roster
structures exactly when the phase is the lobby and the roster is strictly
smaller than the computed start positions; in every other case it returns
`None` and leaves the whole state unchanged (the function is total — no
exception). -/
theorem ajouterJoueurInterne_correct (s : Labyrinthe) (identifiantClient : Nat) (nom : String) :
    (s.mode = debutDePartie ∧ s.listeJoueurs.length < s.departs.length →
      ajouterJoueurInterne s identifiantClient nom =
        (some s.compteur,
          { s with
            joueurs :=
              s.joueurs ++ [(s.compteur, { identifiantClient := identifiantClient, nom := nom })]
            compteur := s.compteur + 1
            dictClientJoueur := assocInserer identifiantClient s.compteur s.dictClientJoueur
            listeJoueurs := s.listeJoueurs ++ [s.compteur] })) ∧
    (¬(s.mode = debutDePartie ∧ s.listeJoueurs.length < s.departs.length) →
      ajouterJoueurInterne s identifiantClient nom = (none, s)) := by
  have hiff : (s.mode = debutDePartie ∧ estOuvert s = true) ↔
      (s.mode = debutDePartie ∧ s.listeJoueurs.length < s.departs.length) := by
    simp [estOuvert]
  constructor
  · intro h
    rw [ajouterJoueurInterne, if_pos (hiff.mpr h)]
  · intro h
    rw [ajouterJoueurInterne, if_neg (fun hc => h (hiff.mp hc))]

/-- Witness for `ajouterJoueurInterne_correct`: in the fresh lobby the join
succeeds with the first object id; in the running two-player game it returns
`None` and changes nothing. -/
theorem ajouterJoueurInterne_correct_temoin :
    (ajouterJoueurInterne (Labyrinthe.init id carteUnDepart "essai") 1 "a").1 = some 0 ∧
    ajouterJoueurInterne partieDeuxJoueurs 3 "c" = (none, partieDeuxJoueurs) := by
  constructor
  · have h := (ajouterJoueurInterne_correct (Labyrinthe.init id carteUnDepart "essai") 1 "a").1
      (by decide)
    rw [h]
    rfl
  · exact (ajouterJoueurInterne_correct partieDeuxJoueurs 3 "c").2 (by decide)

/-- C8: `_effacer_joueur` removes the identified player from the client map
and the turn list; once the phase is at least the running game, a resulting
roster of at most one player switches the phase to the end of the game and
makes the sole survivor (if any) the winner; when the roster emptied, the
winner field is left exactly as it was — in particular unset whenever no
winner had been recorded. -/
theorem effacerJoueurInterne_correct (s : Labyrinthe) (identifiantClient : Nat) (id : IdJoueur)
    (h : assocTrouver identifiantClient s.dictClientJoueur = some id) :
    (effacerJoueurInterne s identifiantClient).dictClientJoueur
        = assocEffacer identifiantClient s.dictClientJoueur ∧
    (effacerJoueurInterne s identifiantClient).listeJoueurs = s.listeJoueurs.erase id ∧
    (jeuEnCours ≤ s.mode → (s.listeJoueurs.erase id).length ≤ 1 →
      (effacerJoueurInterne s identifiantClient).mode = finDePartie ∧
      (∀ premier reste, s.listeJoueurs.erase id = premier :: reste →
        (effacerJoueurInterne s identifiantClient).vainqueur = some premier) ∧
      (s.listeJoueurs.erase id = [] →
        (effacerJoueurInterne s identifiantClient).vainqueur = s.vainqueur)) := by
  by_cases h1 : jeuEnCours ≤ s.mode
  · by_cases h2 : (s.listeJoueurs.erase id).length ≤ 1
    · cases hliste : s.listeJoueurs.erase id with
      | nil =>
        have hres : effacerJoueurInterne s identifiantClient =
            { s with dictClientJoueur := assocEffacer identifiantClient s.dictClientJoueur
                     listeJoueurs := []
                     mode := finDePartie } := by
          simp [effacerJoueurInterne, h, h1, hliste]
        rw [hres]
        refine ⟨rfl, rfl, fun _ _ => ⟨rfl, ?_, fun _ => rfl⟩⟩
        intro p r hp
        exact absurd hp (by simp)
      | cons premier reste =>
        have hreste : reste = [] := by
          rw [hliste] at h2
          simpa using h2
        subst hreste
        have hres : effacerJoueurInterne s identifiantClient =
            { s with dictClientJoueur := assocEffacer identifiantClient s.dictClientJoueur
                     listeJoueurs := [premier]
                     mode := finDePartie
                     vainqueur := some premier } := by
          simp [effacerJoueurInterne, h, h1, hliste]
        rw [hres]
        refine ⟨rfl, rfl, fun _ _ => ⟨rfl, ?_, ?_⟩⟩
        · intro p r hp
          injection hp with hp1 hp2
          subst hp1
          rfl
        · intro hvide
          exact absurd hvide (by simp)
    · have h3 : ¬ (s.listeJoueurs.erase id).length ≤ 1 := h2
      refine ⟨?_, ?_, fun _ hh => absurd hh h3⟩ <;>
        simp [effacerJoueurInterne, h, h1, h3]
  · have h3 : ¬ jeuEnCours ≤ s.mode := h1
    refine ⟨?_, ?_, fun hh _ => absurd hh h3⟩ <;>
      simp [effacerJoueurInterne, h, h3]

/-- Witness for `effacerJoueurInterne_correct`: removing client `1` from the
running two-player game ends it and crowns the survivor (object id `1`). -/
theorem effacerJoueurInterne_correct_temoin :
    (effacerJoueurInterne partieDeuxJoueurs 1).mode = finDePartie ∧
    (effacerJoueurInterne partieDeuxJoueurs 1).vainqueur = some 1 := by
  have h := effacerJoueurInterne_correct partieDeuxJoueurs 1 0 (by decide)
  exact ⟨(h.2.2 (by decide) (by decide)).1, (h.2.2 (by decide) (by decide)).2.1 1 [] (by decide)⟩

theorem appliquerRegles_ok (etat : EtatRegle) :
    ∀ ordre : List Regle, (∀ r ∈ ordre, appliquerRegle etat r = .ok) →
      appliquerRegles etat ordre = .ok
  | [], _ => rfl
  | r :: rs, h => by
    have h1 := h r (by simp)
    simp [appliquerRegles, h1,
      appliquerRegles_ok etat rs (fun r2 hr2 => h r2 (by simp [hr2]))]

/-- C9: a movement snapshot whose target coordinate is absent from the grid
resolves the target to the default element `Sol`, which is startable (hence
traversable) and not winning; consequently a plain movement towards any
off-grid coordinate not occupied by an opponent — however far outside the
map — passes the movement rules under every set iteration order and never
signals a win: nothing bounds how far a player can walk. -/
theorem mouvement_hors_grille_correct (grille : List (Coordonnees × Element))
    (joueur : Joueur) (direction : Coordonnees) (adversaires : List Joueur)
    (ordreMouvement ordreTransformation : List Regle)
    (hOrdre : ordreMouvement.Perm reglesMouvement)
    (hAbsent : grille.lookup
      (joueur.coordonnees.1 + direction.1, joueur.coordonnees.2 + direction.2) = none)
    (hLibre : (joueur.coordonnees.1 + direction.1, joueur.coordonnees.2 + direction.2)
      ∉ adversaires.map Joueur.coordonnees) :
    (construireEtat direction none grille joueur adversaires).obstacle = Element.sol ∧
    Element.sol.demarrable = true ∧ Element.sol.traversable = true ∧
    Element.sol.gagnable = false ∧
    verifierRegles ordreMouvement ordreTransformation
      (construireEtat direction none grille joueur adversaires) = .ok := by
  have hobs : (construireEtat direction none grille joueur adversaires).obstacle
      = Element.sol := by
    simp [construireEtat, resoudre, hAbsent, obstacleParDefaut]
  refine ⟨hobs, rfl, rfl, rfl, ?_⟩
  have hok : ∀ r ∈ ordreMouvement,
      appliquerRegle (construireEtat direction none grille joueur adversaires) r = .ok := by
    intro r hr
    have hr2 : r ∈ reglesMouvement := hOrdre.mem_iff.mp hr
    simp only [reglesMouvement, List.mem_cons, List.not_mem_nil, or_false] at hr2
    rcases hr2 with rfl | rfl | rfl
    · simp [appliquerRegle, hobs]
      rfl
    · simp [appliquerRegle, construireEtat, hLibre]
    · simp [appliquerRegle, hobs]
      rfl
  have htr : (construireEtat direction none grille joueur adversaires).transformation = none :=
    rfl
  simp only [verifierRegles, htr, Option.isSome_none, Bool.false_eq_true, if_false]
  exact appliquerRegles_ok _ ordreMouvement hok

/-- Witness for `mouvement_hors_grille_correct`: from `(1000000, -999999)`,
far beyond the sample map, a northward step passes every movement rule. -/
theorem mouvement_hors_grille_correct_temoin :
    verifierRegles reglesMouvement reglesTransformation
      (construireEtat (0, -1) none (Labyrinthe.init id carteUnDepart "essai").grille
        { identifiantClient := 1, nom := "a", coordonnees := (1000000, -999999) } [])
      = .ok :=
  (mouvement_hors_grille_correct (Labyrinthe.init id carteUnDepart "essai").grille
    { identifiantClient := 1, nom := "a", coordonnees := (1000000, -999999) } (0, -1) []
    reglesMouvement reglesTransformation (List.Perm.refl _) (by decide) (by decide)).2.2.2.2

theorem gagnable_traversable (e : Element) (h : e.gagnable = true) : e.traversable = true := by
  cases e <;> simp_all [Element.gagnable, Element.traversable]

/-- C3 counterexample: `[gagner, rencontrer, traverser]` is a permutation of
the registered movement rules — hence a possible iteration order of the
Python `set` `regles_mouvement` — and under it the snapshot of a move onto
the exit of `carteUnDepart` while an opponent stands there raises the
Game-Won signal, not the Rule-Violation the claim promises. -/
theorem verifierRegles_ordre_contre_exemple :
    [Regle.gagner, Regle.rencontrer, Regle.traverser].Perm reglesMouvement ∧
    verifierRegles [Regle.gagner, Regle.rencontrer, Regle.traverser] reglesTransformation
      (construireEtat (1, 0) none (Labyrinthe.init id carteUnDepart "essai").grille
        { identifiantClient := 1, nom := "a", coordonnees := (1, 0) }
        [{ identifiantClient := 2, nom := "b", coordonnees := (2, 0) }]) = .partieGagnee := by
  exact ⟨by decide, by decide⟩

/-- C3 amended: the movement registry is a Python `set`, so `verifier_regles`
runs the registered movement rules in an arbitrary iteration order, not
necessarily registration order; for a movement snapshot whose target cell
both carries an opponent and is winning, the outcome follows whichever of the
opponent check and the win check the iteration order runs first — the
violation when `rencontrer` precedes `gagner` (as in registration order), the
Game-Won signal when `gagner` precedes `rencontrer`. -/
theorem verifierRegles_ordre_correct (ordreMouvement ordreTransformation : List Regle)
    (hOrdre : ordreMouvement.Perm reglesMouvement) (etat : EtatRegle)
    (hTrans : etat.transformation = none)
    (hAdv : etat.coordonneesObstacle ∈ etat.coordonneesAdversaires)
    (hGagn : etat.obstacle.gagnable = true) :
    (ordreMouvement.indexOf .rencontrer < ordreMouvement.indexOf .gagner →
      verifierRegles ordreMouvement ordreTransformation etat =
        .horsRegles ("Un joueur occupe déjà " ++ etat.obstacle.description ++ " !")) ∧
    (ordreMouvement.indexOf .gagner < ordreMouvement.indexOf .rencontrer →
      verifierRegles ordreMouvement ordreTransformation etat = .partieGagnee) := by
  have htrav : etat.obstacle.traversable = true := gagnable_traversable _ hGagn
  have h3 : ordreMouvement.length = 3 := by rw [hOrdre.length_eq]; rfl
  rcases ordreMouvement with _ | ⟨a, _ | ⟨b, _ | ⟨c, _ | ⟨d, reste⟩⟩⟩⟩ <;>
    simp only [List.length_nil, List.length_cons] at h3 <;> try omega
  rcases a <;> rcases b <;> rcases c <;>
    first
      | exact absurd hOrdre (by decide)
      | (refine ⟨fun hidx => ?_, fun hidx => ?_⟩ <;>
          first
            | exact absurd hidx (by decide)
            | simp [verifierRegles, hTrans, appliquerRegles, appliquerRegle, hAdv, hGagn,
                htrav])

/-- Witness for `verifierRegles_ordre_correct`: in registration order the
occupied winning cell yields the opponent Rule-Violation. -/
theorem verifierRegles_ordre_correct_temoin :
    verifierRegles reglesMouvement reglesTransformation
      (construireEtat (1, 0) none (Labyrinthe.init id carteUnDepart "essai").grille
        { identifiantClient := 1, nom := "a", coordonnees := (1, 0) }
        [{ identifiantClient := 2, nom := "b", coordonnees := (2, 0) }]) =
      .horsRegles ("Un joueur occupe déjà "
        ++ (construireEtat (1, 0) none (Labyrinthe.init id carteUnDepart "essai").grille
          { identifiantClient := 1, nom := "a", coordonnees := (1, 0) }
          [{ identifiantClient := 2, nom := "b", coordonnees := (2, 0) }]).obstacle.description
        ++ " !") :=
  (verifierRegles_ordre_correct reglesMouvement reglesTransformation (List.Perm.refl _) _
    rfl (by decide) (by decide)).1 (by decide)

/-- C4: when the popped command of the head player breaks a rule, exactly one
display datagram carrying the reason is appended, addressed to that player
only; the player returns to the head of the turn order; and the board is
otherwise untouched: grid, client map, phase, winner and every player's
coordinate are as before the command (only the offender's command queue lost
the consumed command). -/
theorem jouer_horsRegles_correct (ordreMouvement ordreTransformation : List Regle)
    (s : Labyrinthe) (courant : IdJoueur) (resteJoueurs : List IdJoueur)
    (hListe : s.listeJoueurs = courant :: resteJoueurs)
    (hSansDoublon : courant ∉ resteJoueurs)
    (joueur : Joueur) (hJoueur : assocTrouver courant s.joueurs = some joueur)
    (commande : String) (resteCommandes : List String)
    (hCommandes : joueur.commandes = commande :: resteCommandes)
    (direction : Coordonnees) (transformation : Option Transformer)
    (hControle : obtenirControle commande = some (direction, transformation))
    (raison : String)
    (hIssue : verifierRegles ordreMouvement ordreTransformation
      (construireEtat direction transformation s.grille joueur
        (resteJoueurs.map (joueurDe s))) = .horsRegles raison) :
    ∃ s2, jouerEtape ordreMouvement ordreTransformation s = .continuer s2 ∧
      s2.datagrammes = s.datagrammes ++ [(joueur.identifiantClient, "affichage", some raison)] ∧
      s2.listeJoueurs = s.listeJoueurs ∧
      s2.grille = s.grille ∧
      s2.dictClientJoueur = s.dictClientJoueur ∧
      s2.mode = s.mode ∧
      s2.vainqueur = s.vainqueur ∧
      s2.joueurCourant = none ∧
      (∀ idj, (assocTrouver idj s2.joueurs).map Joueur.coordonnees
          = (assocTrouver idj s.joueurs).map Joueur.coordonnees) := by
  have hmap : ∀ s3 : Labyrinthe,
      s3.joueurs =
        assocModifier courant (fun j => { j with commandes := resteCommandes }) s.joueurs →
      resteJoueurs.map (joueurDe s3) = resteJoueurs.map (joueurDe s) := by
    intro s3 h3
    apply List.map_congr_left
    intro idj hid
    have hne : ¬ idj = courant := fun hh => hSansDoublon (hh ▸ hid)
    simp [joueurDe, h3, assocTrouver_assocModifier, hne]
  have hEtat : ∀ s3 : Labyrinthe,
      s3.joueurs =
        assocModifier courant (fun j => { j with commandes := resteCommandes }) s.joueurs →
      construireEtat direction transformation s.grille (joueurDe s3 courant)
          (resteJoueurs.map (joueurDe s3))
        = construireEtat direction transformation s.grille joueur
            (resteJoueurs.map (joueurDe s)) := by
    intro s3 h3
    rw [hmap s3 h3]
    simp [construireEtat, joueurDe, h3, assocTrouver_assocModifier, hJoueur]
  refine ⟨{ s with
      joueurs := assocModifier courant (fun j => { j with commandes := resteCommandes }) s.joueurs
      datagrammes := s.datagrammes ++ [(joueur.identifiantClient, "affichage", some raison)]
      listeJoueurs := courant :: resteJoueurs
      joueurCourant := none }, ?_, ?_, hListe.symm, rfl, rfl, rfl, rfl, rfl, ?_⟩
  · have hj : joueurDe { s with listeJoueurs := resteJoueurs, joueurCourant := some courant }
        courant = joueur := by
      simp [joueurDe, hJoueur]
    simp only [jouerEtape, hListe]
    rw [hj, hCommandes]
    simp only []
    rw [hControle]
    simp only []
    rw [hEtat
      { s with
          listeJoueurs := resteJoueurs
          joueurCourant := some courant
          joueurs :=
            assocModifier courant (fun j => { j with commandes := resteCommandes }) s.joueurs }
      rfl, hIssue]
    simp [joueurDe, assocTrouver_assocModifier, hJoueur]
  · rfl
  · intro idj
    by_cases hne : idj = courant
    · subst hne
      simp [assocTrouver_assocModifier, hJoueur]
    · simp [assocTrouver_assocModifier, hne]

/-- Witness for `jouer_horsRegles_correct`: in the two-player game, player `0`
at `(1, 1)` trying to walk west into the wall at `(0, 1)` is rejected with the
wall traversal reason and stays at the head of the turn order. -/
theorem jouer_horsRegles_correct_temoin :
    ∃ s2, jouerEtape reglesMouvement reglesTransformation
        (partieDeuxJoueurs.ajouterCommande 1 "O") = .continuer s2 ∧
      s2.datagrammes = (partieDeuxJoueurs.ajouterCommande 1 "O").datagrammes ++
        [(1, "affichage", some ("Vous ne pouvez pas traverser le mur !"))] ∧
      s2.listeJoueurs = (partieDeuxJoueurs.ajouterCommande 1 "O").listeJoueurs ∧
      s2.grille = (partieDeuxJoueurs.ajouterCommande 1 "O").grille ∧
      s2.dictClientJoueur = (partieDeuxJoueurs.ajouterCommande 1 "O").dictClientJoueur ∧
      s2.mode = (partieDeuxJoueurs.ajouterCommande 1 "O").mode ∧
      s2.vainqueur = (partieDeuxJoueurs.ajouterCommande 1 "O").vainqueur ∧
      s2.joueurCourant = none ∧
      (∀ idj, (assocTrouver idj s2.joueurs).map Joueur.coordonnees
          = (assocTrouver idj (partieDeuxJoueurs.ajouterCommande 1 "O").joueurs).map
              Joueur.coordonnees) := by
  have h := jouer_horsRegles_correct reglesMouvement reglesTransformation
    (partieDeuxJoueurs.ajouterCommande 1 "O") 0 [1] (by decide) (by decide)
    { identifiantClient := 1, nom := "a", coordonnees := (1, 1), commandes := ["O"] }
    (by decide) "O" [] (by decide) (-1, 0) none (by decide)
    ("Vous ne pouvez pas traverser le mur !") (by decide)
  exact h

/-- C1 counterexample: in the winning run on `carteUnDepart`, the Game-Won
signal ends the game and records the winner — but the movement effect is
applied as well: the winner's coordinate moved from `(1, 1)` onto the exit
`(2, 0)`.  The `except PartieGagnee` clause in `jouer` does not leave the
iteration, so execution falls through to the effect; the claim's "applied
only in the case where no Game-Won signal was raised" is false. -/
theorem jouer_gain_contre_exemple :
    partieApresGain.mode = finDePartie ∧
    partieApresGain.vainqueur = some 0 ∧
    (joueurDe partieAvantGain 0).coordonnees = (1, 1) ∧
    (joueurDe partieApresGain 0).coordonnees = (2, 0) ∧
    resoudre partieApresGain.grille (2, 0) = Element.sortie :=
  ⟨by decide, by decide, by decide, by decide, by decide⟩

/-- C1 amended: when rule checking signals Game-Won for the popped movement
command, the phase is set to Finished and the current player is recorded as
winner — and the movement effect is applied as well (the player's coordinate
becomes the target cell, the grid is untouched, the player goes to the tail
of the turn order); the effect is skipped only on a Rule-Violation. -/
theorem jouer_gain_correct (ordreMouvement ordreTransformation : List Regle)
    (s : Labyrinthe) (courant : IdJoueur) (resteJoueurs : List IdJoueur)
    (hListe : s.listeJoueurs = courant :: resteJoueurs)
    (hSansDoublon : courant ∉ resteJoueurs)
    (joueur : Joueur) (hJoueur : assocTrouver courant s.joueurs = some joueur)
    (commande : String) (resteCommandes : List String)
    (hCommandes : joueur.commandes = commande :: resteCommandes)
    (direction : Coordonnees)
    (hControle : obtenirControle commande = some (direction, none))
    (hIssue : verifierRegles ordreMouvement ordreTransformation
      (construireEtat direction none s.grille joueur
        (resteJoueurs.map (joueurDe s))) = .partieGagnee) :
    ∃ s2, jouerEtape ordreMouvement ordreTransformation s = .continuer s2 ∧
      s2.mode = finDePartie ∧
      s2.vainqueur = some courant ∧
      (assocTrouver courant s2.joueurs).map Joueur.coordonnees =
        some (joueur.coordonnees.1 + direction.1, joueur.coordonnees.2 + direction.2) ∧
      s2.listeJoueurs = resteJoueurs ++ [courant] ∧
      s2.grille = s.grille := by
  have hmap : ∀ s3 : Labyrinthe,
      s3.joueurs =
        assocModifier courant (fun j => { j with commandes := resteCommandes }) s.joueurs →
      resteJoueurs.map (joueurDe s3) = resteJoueurs.map (joueurDe s) := by
    intro s3 h3
    apply List.map_congr_left
    intro idj hid
    have hne : ¬ idj = courant := fun hh => hSansDoublon (hh ▸ hid)
    simp [joueurDe, h3, assocTrouver_assocModifier, hne]
  have hEtat : ∀ s3 : Labyrinthe,
      s3.joueurs =
        assocModifier courant (fun j => { j with commandes := resteCommandes }) s.joueurs →
      construireEtat direction none s.grille (joueurDe s3 courant)
          (resteJoueurs.map (joueurDe s3))
        = construireEtat direction none s.grille joueur
            (resteJoueurs.map (joueurDe s)) := by
    intro s3 h3
    rw [hmap s3 h3]
    simp [construireEtat, joueurDe, h3, assocTrouver_assocModifier, hJoueur]
  refine ⟨aQuiDeJouer (afficherPlateau
    { s with
      joueurs :=
        assocModifier courant
          (fun j => { j with coordonnees :=
            (joueur.coordonnees.1 + direction.1, joueur.coordonnees.2 + direction.2) })
          (assocModifier courant (fun j => { j with commandes := resteCommandes }) s.joueurs)
      mode := finDePartie
      vainqueur := some courant
      listeJoueurs := resteJoueurs ++ [courant]
      joueurCourant := none }), ?_, ?_, ?_, ?_, ?_, ?_⟩
  · have hj : joueurDe { s with listeJoueurs := resteJoueurs, joueurCourant := some courant }
        courant = joueur := by
      simp [joueurDe, hJoueur]
    simp only [jouerEtape, hListe]
    rw [hj, hCommandes]
    simp only []
    rw [hControle]
    simp only []
    rw [hEtat
      { s with
          listeJoueurs := resteJoueurs
          joueurCourant := some courant
          joueurs :=
            assocModifier courant (fun j => { j with commandes := resteCommandes }) s.joueurs }
      rfl, hIssue]
    simp [construireEtat, appliquerEffet]
  · rw [aQuiDeJouer_mode, afficherPlateau_mode]
  · rw [aQuiDeJouer_vainqueur, afficherPlateau_vainqueur]
  · rw [aQuiDeJouer_joueurs, afficherPlateau_joueurs]
    simp [assocTrouver_assocModifier, hJoueur]
  · rw [aQuiDeJouer_listeJoueurs, afficherPlateau_listeJoueurs]
  · rw [aQuiDeJouer_grille, afficherPlateau_grille]

/-- Witness for `jouer_gain_correct`: from `partieAuBordDuGain`, the queued
`E` command wins the game, crowns player `0` and moves them onto the exit
`(2, 0)`. -/
theorem jouer_gain_correct_temoin :
    ∃ s2, jouerEtape reglesMouvement reglesTransformation partieAuBordDuGain = .continuer s2 ∧
      s2.mode = finDePartie ∧
      s2.vainqueur = some 0 ∧
      (assocTrouver 0 s2.joueurs).map Joueur.coordonnees = some (2, 0) ∧
      s2.listeJoueurs = [] ++ [0] ∧
      s2.grille = partieAuBordDuGain.grille :=
  jouer_gain_correct reglesMouvement reglesTransformation partieAuBordDuGain 0 []
    (by decide) (by decide)
    { identifiantClient := 1, nom := "a", coordonnees := (1, 0), commandes := ["E"] }
    (by decide) "E" [] (by decide) (1, 0) (by decide) (by decide)

/-- C2 counterexample: both `[1, 0]` and `[0, 1]` are permutations of the
two-player lobby roster — legitimate outputs of the first `sample` — and with
the second draw held fixed at `[1, 0]`, the two choices of first draw produce
different turn orders: the first shuffle is not superseded, it alone fixes
`liste_joueurs`. -/
theorem demarrer_tirages_contre_exemple :
    [1, 0].Perm lobbyDeuxJoueurs.listeJoueurs ∧
    [0, 1].Perm lobbyDeuxJoueurs.listeJoueurs ∧
    (lobbyDeuxJoueurs.demarrer 0 [1, 0] [1, 0]).listeJoueurs
      ≠ (lobbyDeuxJoueurs.demarrer 0 [0, 1] [1, 0]).listeJoueurs :=
  ⟨by decide, by decide, by decide⟩

theorem affecterDeparts_absent (departs : List Coordonnees) :
    ∀ (tirage : List IdJoueur) (joueurs : List (IdJoueur × Joueur)) (indice : Nat)
      (idj : IdJoueur), idj ∉ tirage →
      assocTrouver idj (affecterDeparts joueurs departs indice tirage)
        = assocTrouver idj joueurs
  | [], _, _, _, _ => rfl
  | t :: reste, joueurs, indice, idj, h => by
    have h1 : idj ∉ reste := fun hh => h (by simp [hh])
    have h2 : ¬ idj = t := fun hh => h (by simp [hh])
    rw [affecterDeparts, affecterDeparts_absent departs reste _ _ idj h1]
    simp [assocTrouver_assocModifier, h2]

theorem affecterDeparts_get (departs : List Coordonnees) :
    ∀ (tirage : List IdJoueur) (joueurs : List (IdJoueur × Joueur)) (indice : Nat),
      tirage.Nodup →
      ∀ (k : Nat) (hk : k < tirage.length),
      (assocTrouver (tirage.get ⟨k, hk⟩) joueurs).isSome →
      (assocTrouver (tirage.get ⟨k, hk⟩)
          (affecterDeparts joueurs departs indice tirage)).map Joueur.coordonnees
        = some (departs.getD (indice + k) (0, 0))
  | [], _, _, _, k, hk, _ => absurd hk (by simp)
  | t :: reste, joueurs, indice, hN, 0, hk, hSome => by
    have ht : t ∉ reste := (List.nodup_cons.mp hN).1
    have hget : (t :: reste).get ⟨0, hk⟩ = t := rfl
    rw [hget] at hSome ⊢
    rw [affecterDeparts, affecterDeparts_absent departs reste _ _ t ht]
    obtain ⟨j, hj⟩ := Option.isSome_iff_exists.mp hSome
    simp [assocTrouver_assocModifier, hj]
  | t :: reste, joueurs, indice, hN, k + 1, hk, hSome => by
    have hN2 : reste.Nodup := (List.nodup_cons.mp hN).2
    have hk2 : k < reste.length := by
      simpa using hk
    have hgete : (t :: reste).get ⟨k + 1, hk⟩ = reste.get ⟨k, hk2⟩ := rfl
    rw [hgete] at hSome ⊢
    have hSome2 : (assocTrouver (reste.get ⟨k, hk2⟩)
        (assocModifier t (fun j => { j with coordonnees := departs.getD indice (0, 0) })
          joueurs)).isSome := by
      rw [assocTrouver_assocModifier]
      by_cases hcase : reste.get ⟨k, hk2⟩ = t
      · rw [if_pos hcase]
        rw [hcase] at hSome
        obtain ⟨j, hj⟩ := Option.isSome_iff_exists.mp hSome
        simp [hj]
      · rw [if_neg hcase]
        exact hSome
    have := affecterDeparts_get departs reste
      (assocModifier t (fun j => { j with coordonnees := departs.getD indice (0, 0) }) joueurs)
      (indice + 1) hN2 k hk2 hSome2
    have harith : indice + 1 + k = indice + (k + 1) := by omega
    rw [affecterDeparts, this, harith]

/-- C2 amended: in `demarrer` the first `sample` alone fixes the turn order
(`liste_joueurs` becomes exactly the first draw), while the second `sample`
alone fixes the assignment: the `k`-th player of the second draw receives the
ranked start position `departs[indice + k]`.  Neither shuffle is
superseded — they govern two different outcomes. -/
theorem demarrer_tirages_correct (s : Labyrinthe) (indice : Nat)
    (premierTirage secondTirage : List IdJoueur)
    (hNodup : secondTirage.Nodup)
    (hTas : ∀ idj, (hm : idj ∈ secondTirage) → (assocTrouver idj s.joueurs).isSome) :
    (s.demarrer indice premierTirage secondTirage).listeJoueurs = premierTirage ∧
    (s.demarrer indice premierTirage secondTirage).mode = jeuEnCours ∧
    ∀ (k : Nat) (hk : k < secondTirage.length),
      (assocTrouver (secondTirage.get ⟨k, hk⟩)
          (s.demarrer indice premierTirage secondTirage).joueurs).map Joueur.coordonnees
        = some (s.departs.getD (indice + k) (0, 0)) := by
  refine ⟨?_, ?_, ?_⟩
  · rw [Labyrinthe.demarrer, aQuiDeJouer_listeJoueurs, afficherPlateau_listeJoueurs]
  · rw [Labyrinthe.demarrer, aQuiDeJouer_mode, afficherPlateau_mode]
  · intro k hk
    rw [Labyrinthe.demarrer, aQuiDeJouer_joueurs, afficherPlateau_joueurs]
    exact affecterDeparts_get s.departs secondTirage s.joueurs indice hNodup k hk
      (hTas _ (List.get_mem _ _ hk))

/-- Witness for `demarrer_tirages_correct`: starting the two-player game with
first draw `[1, 0]` and second draw `[1, 0]` makes the turn order `[1, 0]` and
assigns the first ranked start to player `1`. -/
theorem demarrer_tirages_correct_temoin :
    (lobbyDeuxJoueurs.demarrer 0 [1, 0] [1, 0]).listeJoueurs = [1, 0] ∧
    (assocTrouver 1 (lobbyDeuxJoueurs.demarrer 0 [1, 0] [1, 0]).joueurs).map
        Joueur.coordonnees
      = some (lobbyDeuxJoueurs.departs.getD 0 (0, 0)) := by
  have h := demarrer_tirages_correct lobbyDeuxJoueurs 0 [1, 0] [1, 0] (by decide)
    (fun idj hm => by
      have : idj = 1 ∨ idj = 0 := by
        simpa using hm
      rcases this with rfl | rfl <;> decide)
  exact ⟨h.1, h.2.2 0 (by decide)⟩

theorem traiterCoordonnee_departs (grille : List (Coordonnees × Element))
    (boite : Coordonnees × Coordonnees) (distance : Nat)
    (etatParcours : List (Coordonnees × Nat) × List Coordonnees)
    (coordonnees : Coordonnees) :
    ∀ c ∈ (traiterCoordonnee grille boite distance etatParcours coordonnees).2,
      c ∈ etatParcours.2 ∨ (resoudre grille c).demarrable = true := by
  intro c hc
  obtain ⟨lp, dn⟩ := etatParcours
  simp only [traiterCoordonnee] at hc
  by_cases hb : boite.1.1 ≤ coordonnees.1 ∧ coordonnees.1 ≤ boite.2.1 ∧
      boite.1.2 ≤ coordonnees.2 ∧ coordonnees.2 ≤ boite.2.2
  · rw [if_pos hb] at hc
    by_cases hmem : (assocTrouver coordonnees lp).isSome
    · rw [if_pos hmem] at hc
      exact Or.inl hc
    · rw [if_neg hmem] at hc
      cases helem : resoudre grille coordonnees with
      | porte =>
        simp [helem, Element.demarrable, Element.traversable] at hc
        exact Or.inl hc
      | mur =>
        simp [helem, Element.demarrable, Element.traversable, Element.transformee] at hc
        exact Or.inl hc
      | sortie =>
        simp [helem, Element.demarrable, Element.traversable] at hc
        exact Or.inl hc
      | sol =>
        simp [helem, Element.demarrable] at hc
        rcases hc with h | h
        · exact Or.inl h
        · subst h
          exact Or.inr (by simp [helem, Element.demarrable])
  · rw [if_neg hb] at hc
    exact Or.inl hc

theorem parcourirDirections_departs (grille : List (Coordonnees × Element))
    (boite : Coordonnees × Coordonnees) (distance : Nat) (position : Coordonnees) :
    ∀ (dirs : List Coordonnees) (etatParcours : List (Coordonnees × Nat) × List Coordonnees),
      ∀ c ∈ (dirs.foldl
          (fun acc direction =>
            traiterCoordonnee grille boite distance acc
              (position.1 + direction.1, position.2 + direction.2))
          etatParcours).2,
        c ∈ etatParcours.2 ∨ (resoudre grille c).demarrable = true
  | [], _ => fun _ hc => Or.inl hc
  | d :: dirs, etatParcours => by
    intro c hc
    rcases parcourirDirections_departs grille boite distance position dirs _ c hc with h | h
    · exact traiterCoordonnee_departs grille boite distance etatParcours
        (position.1 + d.1, position.2 + d.2) c h
    · exact Or.inr h

theorem parcourirPositions_departs (grille : List (Coordonnees × Element))
    (boite : Coordonnees × Coordonnees) (distance : Nat) :
    ∀ (positions : List Coordonnees)
      (etatParcours : List (Coordonnees × Nat) × List Coordonnees),
      ∀ c ∈ (parcourirPositions grille boite distance positions etatParcours).2,
        c ∈ etatParcours.2 ∨ (resoudre grille c).demarrable = true
  | [], _ => fun _ hc => Or.inl hc
  | position :: autres, etatParcours => by
    intro c hc
    rcases parcourirPositions_departs grille boite distance autres _ c hc with h | h
    · exact parcourirDirections_departs grille boite distance position directionsMouvement
        etatParcours c h
    · exact Or.inr h

theorem parcoursNiveaux_departs (grille : List (Coordonnees × Element))
    (boite : Coordonnees × Coordonnees) (melange : List Coordonnees → List Coordonnees)
    (hMelange : ∀ l, (melange l).Perm l) :
    ∀ (fuel distance : Nat) (listePositions : List (Coordonnees × Nat))
      (departs : List Coordonnees),
      (∀ c ∈ departs, (resoudre grille c).demarrable = true) →
      ∀ c ∈ parcoursNiveaux grille boite melange fuel distance listePositions departs,
        (resoudre grille c).demarrable = true
  | 0, _, _, _, hdeparts => fun c hc => hdeparts c hc
  | fuel + 1, distance, lp, departs, hdeparts => by
    intro c hc
    rw [parcoursNiveaux] at hc
    by_cases hcond : lp.any (fun pi => decide (distance ≤ pi.2))
    · rw [if_pos hcond] at hc
      simp only [] at hc
      rcases hpr : parcourirPositions grille boite distance
          ((lp.filter (fun pi => decide (pi.2 = distance))).map Prod.fst) (lp, []) with ⟨lp2, dn⟩
      rw [hpr] at hc
      simp only [] at hc
      refine parcoursNiveaux_departs grille boite melange hMelange fuel (distance + 1) lp2 _
        ?_ c hc
      intro c2 hc2
      by_cases hdn : dn ≠ []
      · rw [if_pos hdn] at hc2
        rcases List.mem_append.mp hc2 with h | h
        · exact hdeparts c2 h
        · have h2 : c2 ∈ dn := (hMelange dn).subset h
          have h3 := parcourirPositions_departs grille boite distance
            ((lp.filter (fun pi => pi.2 = distance)).map Prod.fst) (lp, []) c2 (by
              rw [hpr]
              exact h2)
          rcases h3 with h3 | h3
          · exact absurd h3 (List.not_mem_nil c2)
          · exact h3
      · rw [if_neg hdn] at hc2
        exact hdeparts c2 hc2
    · rw [if_neg hcond] at hc
      exact hdeparts c hc

/-- C5: after construction, every coordinate of the ranked start list
resolves — through the grid, or to the default element when absent — to an
element with the startable capability, for every map string and every band
shuffle. -/
theorem departs_demarrables (melange : List Coordonnees → List Coordonnees)
    (hMelange : ∀ l, (melange l).Perm l) (chaine nom : String) :
    ∀ c ∈ (Labyrinthe.init melange chaine nom).departs,
      (resoudre (Labyrinthe.init melange chaine nom).grille c).demarrable = true := by
  intro c hc
  rw [Labyrinthe.init] at hc ⊢
  simp only [] at hc ⊢
  rw [determinerDeparts] at hc
  simp only [] at hc
  exact parcoursNiveaux_departs _ _ melange hMelange _ 0 _ []
    (fun c2 hc2 => absurd hc2 (by simp)) c hc

/-- Witness for `departs_demarrables`: the single computed start `(1, 1)` of
`carteUnDepart` resolves to the startable default element. -/
theorem departs_demarrables_temoin :
    (resoudre (Labyrinthe.init id carteUnDepart "essai").grille
      ((1 : Int), (1 : Int))).demarrable = true :=
  departs_demarrables id (fun l => List.Perm.refl l) carteUnDepart "essai" (1, 1) (by decide)

/-- C10 counterexample: after construction and two completed `ajouter_joueur`
calls that reuse client id `1`, the turn list holds both allocated player
objects while the client map holds only the second — the two roster
structures are no longer permutations of each other. -/
theorem invariantRoster_contre_exemple :
    ¬ rosterDuplique.listeJoueurs.Perm (rosterDuplique.dictClientJoueur.map Prod.snd) := by
  decide

theorem invariantRoster_aQui_afficher (s : Labyrinthe) (h : invariantRoster s) :
    invariantRoster (aQuiDeJouer (afficherPlateau s)) := by
  constructor
  · rw [aQuiDeJouer_listeJoueurs, afficherPlateau_listeJoueurs,
      aQuiDeJouer_dictClientJoueur, afficherPlateau_dictClientJoueur]
    exact h.1
  · rw [aQuiDeJouer_joueurCourant, afficherPlateau_joueurCourant]
    exact h.2

theorem invariantRoster_init (melange : List Coordonnees → List Coordonnees)
    (chaine nom : String) : invariantRoster (Labyrinthe.init melange chaine nom) := by
  constructor <;> simp [Labyrinthe.init, invariantRoster]

theorem invariantRoster_ajouter (s : Labyrinthe) (identifiantClient : Nat) (nom : String)
    (hInv : invariantRoster s)
    (hFresh : assocTrouver identifiantClient s.dictClientJoueur = none) :
    invariantRoster (s.ajouterJoueur identifiantClient nom) := by
  unfold Labyrinthe.ajouterJoueur ajouterJoueurInterne
  by_cases hcond : s.mode = debutDePartie ∧ estOuvert s = true
  · rw [if_pos hcond]
    simp only []
    constructor
    · show (s.listeJoueurs ++ [s.compteur]).Perm
        ((assocInserer identifiantClient s.compteur s.dictClientJoueur).map Prod.snd)
      rw [assocTrouver_assocInserer_absent identifiantClient s.compteur s.dictClientJoueur
        hFresh, List.map_append]
      exact hInv.1.append (List.Perm.refl _)
    · exact hInv.2
  · rw [if_neg hcond]
    exact hInv

theorem effacerJoueurInterne_champs (s : Labyrinthe) (identifiantClient : Nat)
    (id : IdJoueur) (hid : assocTrouver identifiantClient s.dictClientJoueur = some id) :
    (effacerJoueurInterne s identifiantClient).dictClientJoueur
        = assocEffacer identifiantClient s.dictClientJoueur ∧
    (effacerJoueurInterne s identifiantClient).listeJoueurs = s.listeJoueurs.erase id ∧
    (effacerJoueurInterne s identifiantClient).joueurCourant = s.joueurCourant := by
  unfold effacerJoueurInterne
  rw [hid]
  simp only []
  by_cases h1 : jeuEnCours ≤ s.mode
  · rw [if_pos h1]
    by_cases h2 : (s.listeJoueurs.erase id).length ≤ 1
    · rw [if_pos h2]
      cases hl : s.listeJoueurs.erase id <;> simp [hl]
    · rw [if_neg h2]
      exact ⟨rfl, rfl, rfl⟩
  · rw [if_neg h1]
    exact ⟨rfl, rfl, rfl⟩

theorem invariantRoster_effacerInterne (s : Labyrinthe) (identifiantClient : Nat)
    (id : IdJoueur) (hid : assocTrouver identifiantClient s.dictClientJoueur = some id)
    (hInv : invariantRoster s) : invariantRoster (effacerJoueurInterne s identifiantClient) := by
  obtain ⟨hd, hl, hj⟩ := effacerJoueurInterne_champs s identifiantClient id hid
  constructor
  · rw [hd, hl]
    have h2 : s.listeJoueurs.Perm
        (id :: (assocEffacer identifiantClient s.dictClientJoueur).map Prod.snd) :=
      hInv.1.trans (map_snd_assocEffacer_perm identifiantClient id s.dictClientJoueur hid)
    have h3 := h2.erase id
    rw [List.erase_cons_head] at h3
    exact h3
  · rw [hj]
    exact hInv.2

theorem invariantRoster_effacer (s : Labyrinthe) (identifiantClient : Nat)
    (hInv : invariantRoster s)
    (hPresent : (assocTrouver identifiantClient s.dictClientJoueur).isSome) :
    invariantRoster (s.effacerJoueur identifiantClient) := by
  obtain ⟨id, hid⟩ := Option.isSome_iff_exists.mp hPresent
  unfold Labyrinthe.effacerJoueur
  rw [hid]
  simp only []
  have hInterne := invariantRoster_effacerInterne s identifiantClient id hid hInv
  by_cases h1 : jeuEnCours ≤ (effacerJoueurInterne s identifiantClient).mode
  · rw [if_pos h1]
    exact invariantRoster_aQui_afficher _ ⟨hInterne.1, hInterne.2⟩
  · rw [if_neg h1]
    exact hInterne

theorem invariantRoster_demarrer (s : Labyrinthe) (indice : Nat)
    (premierTirage secondTirage : List IdJoueur) (hInv : invariantRoster s)
    (hPerm : premierTirage.Perm s.listeJoueurs) :
    invariantRoster (s.demarrer indice premierTirage secondTirage) := by
  unfold Labyrinthe.demarrer
  apply invariantRoster_aQui_afficher
  exact ⟨hPerm.trans hInv.1, hInv.2⟩

theorem invariantRoster_commande (s : Labyrinthe) (identifiantClient : Nat) (saisie : String)
    (hInv : invariantRoster s) :
    invariantRoster (s.ajouterCommande identifiantClient saisie) := by
  unfold Labyrinthe.ajouterCommande
  cases hid : assocTrouver identifiantClient s.dictClientJoueur with
  | none => exact hInv
  | some id =>
    simp only []
    by_cases hne : (joueurDe { s with
        joueurs := assocModifier id
          (fun j => { j with commandes := j.commandes ++ extraire saisie }) s.joueurs }
        id).commandes ≠ []
    · rw [if_pos hne]
      exact ⟨hInv.1, hInv.2⟩
    · rw [if_neg hne]
      exact ⟨hInv.1, hInv.2⟩

theorem invariantRoster_terminer (s : Labyrinthe) (hInv : invariantRoster s) :
    invariantRoster s.terminer :=
  ⟨hInv.1, hInv.2⟩

theorem appliquerEffet_listeJoueurs (instantane : EtatRegle)
    (transformation : Option Transformer) (courant : IdJoueur) (s3 : Labyrinthe) :
    (appliquerEffet instantane transformation courant s3).listeJoueurs = s3.listeJoueurs := by
  cases transformation with
  | none => rfl
  | some tr =>
    unfold appliquerEffet
    cases instantane.obstacle.transformee with
    | none => rfl
    | some transformee => by_cases h : transformee.decrypte = true <;> simp [h]

theorem appliquerEffet_dictClientJoueur (instantane : EtatRegle)
    (transformation : Option Transformer) (courant : IdJoueur) (s3 : Labyrinthe) :
    (appliquerEffet instantane transformation courant s3).dictClientJoueur
      = s3.dictClientJoueur := by
  cases transformation with
  | none => rfl
  | some tr =>
    unfold appliquerEffet
    cases instantane.obstacle.transformee with
    | none => rfl
    | some transformee => by_cases h : transformee.decrypte = true <;> simp [h]

theorem invariantRoster_jouerEtape (ordreMouvement ordreTransformation : List Regle)
    (s : Labyrinthe) (hInv : invariantRoster s) :
    invariantRoster (etatDePas (jouerEtape ordreMouvement ordreTransformation s)) := by
  unfold jouerEtape
  cases hliste : s.listeJoueurs with
  | nil => exact hInv
  | cons courant reste =>
    have hperm : (courant :: reste).Perm (s.dictClientJoueur.map Prod.snd) := by
      rw [← hliste]
      exact hInv.1
    simp only []
    split
    · exact ⟨hperm, rfl⟩
    · split
      · exact hInv
      · split
        · exact ⟨hperm, rfl⟩
        · apply invariantRoster_aQui_afficher
          refine ⟨?_, rfl⟩
          rw [appliquerEffet_listeJoueurs, appliquerEffet_dictClientJoueur]
          split <;> exact (List.perm_append_singleton _ _).trans hperm

theorem invariantRoster_jouerAux (ordreMouvement ordreTransformation : List Regle) :
    ∀ (fuel : Nat) (s : Labyrinthe), invariantRoster s →
      invariantRoster (jouerAux ordreMouvement ordreTransformation fuel s)
  | 0, _, h => h
  | fuel + 1, s, h => by
    rw [jouerAux]
    by_cases hmode : s.mode < finDePartie
    · rw [if_pos hmode]
      have hstep := invariantRoster_jouerEtape ordreMouvement ordreTransformation s h
      cases hp : jouerEtape ordreMouvement ordreTransformation s with
      | sortir s2 =>
        rw [hp] at hstep
        exact hstep
      | continuer s2 =>
        rw [hp] at hstep
        exact invariantRoster_jouerAux ordreMouvement ordreTransformation fuel s2 hstep
    · rw [if_neg hmode]
      exact h

/-- C10 amended: after construction and after each completed public call the
turn list is a permutation of the players stored as values of the client map
and no current player is recorded — provided every `ajouter_joueur` call uses
a client id not already in the map.  (Reusing a client id completes too, but
overwrites the map entry while appending to the turn list, breaking the
permutation — see the counterexample.) -/
theorem invariantRoster_atteignable (s : Labyrinthe) (h : Atteignable s) :
    invariantRoster s := by
  induction h with
  | init melange chaine nom => exact invariantRoster_init melange chaine nom
  | ajouter s2 identifiantClient nom _ hFresh ih =>
    exact invariantRoster_ajouter s2 identifiantClient nom ih hFresh
  | effacer s2 identifiantClient _ hPresent ih =>
    exact invariantRoster_effacer s2 identifiantClient ih hPresent
  | demarrer s2 indice premierTirage secondTirage _ hPerm _ _ ih =>
    exact invariantRoster_demarrer s2 indice premierTirage secondTirage ih hPerm
  | commande s2 identifiantClient saisie _ _ ih =>
    exact invariantRoster_commande s2 identifiantClient saisie ih
  | jouer s2 ordreMouvement ordreTransformation _ _ _ _ ih =>
    exact invariantRoster_jouerAux ordreMouvement ordreTransformation _ s2 ih
  | terminer s2 _ ih => exact invariantRoster_terminer s2 ih

/-- Witness for `invariantRoster_atteignable`: the invariant holds in the
state reached by construction followed by one join with the fresh client id
`1`. -/
theorem invariantRoster_atteignable_temoin :
    invariantRoster ((Labyrinthe.init id carteDeuxDeparts "essai").ajouterJoueur 1 "a") :=
  invariantRoster_atteignable _
    (Atteignable.ajouter _ 1 "a" (Atteignable.init id carteDeuxDeparts "essai") (by decide))

end Roboc
